import Mathlib

/-!
# SmartBulb chaincode: argument validation, record access and dispatch

A shallow embedding of `smartbulb.go`.

* A Go `string` is its byte sequence (`GoString`); `len` is the number of bytes.
* A Go `[]byte` that may be `nil` is an `Option (List UInt8)` (`none` is `nil`).
* A Go `error` is represented by the text of its `Error()` method; `none` is the `nil` error.
* A value of type `interface{}` in the variadic descriptor of `Validate` is an `Iface`.
* A run-time panic (index out of range, failed type assertion) is the result `none`.
* The two standard-library functions the code calls, `json.Unmarshal` into a
  `map[string]interface{}` and `strings.ToLower`, are the fields of a `Lib` record; every general
  theorem holds for all of their behaviours.
* The chaincode stub (ledger state, event transport) is the record `Stub`.
* Logging is diagnostic only and is not modelled.
-/

set_option autoImplicit false
set_option linter.unusedVariables false

namespace SmartBulb

/-! ## Data model -/

/-- Go `string`: a sequence of bytes. -/
abbrev GoString := List UInt8

/-- The bytes of a text literal (UTF-8). -/
def str (s : String) : GoString := s.data.flatMap String.utf8EncodeChar

/-- Go `len(s)` of a string, as a Go `int`. -/
def len (s : GoString) : Int := s.length

/-- Response of the peer: `peer.Response` with its fields `Status`, `Message`, `Payload`. -/
structure Response where
  Status : Int
  Message : GoString
  Payload : Option (List UInt8)
  deriving DecidableEq, Repr

/-- Go `Success(rc, doc, payload)`. -/
def Success (rc : Int) (doc : GoString) (payload : Option (List UInt8)) : Response :=
  { Status := rc, Message := doc, Payload := payload }

/-- Go `Error(rc, doc)`: the payload is left at its zero value `nil`. -/
def Error (rc : Int) (doc : GoString) : Response :=
  { Status := rc, Message := doc, Payload := none }

/-- Library `shim.Error(msg)`: a response with status `shim.ERROR = 500`. -/
def shimError (msg : GoString) : Response :=
  { Status := 500, Message := msg, Payload := none }

/-- A value held in a Go `interface{}`, as far as `Validate` inspects it. -/
inductive Iface where
  | string (s : GoString)
  | int (n : Int)
  | other
  deriving DecidableEq, Repr

/-- The standard-library functions used by the chaincode. -/
structure Lib where
  /-- True when `json.Unmarshal([]byte(s), &jsonData)` with `jsonData` of type
  `map[string]interface{}` returns a `nil` error. -/
  jsonUnmarshal : GoString → Bool
  /-- Library `strings.ToLower`. -/
  ToLower : GoString → GoString


/-! ## Validation -/

/-- Outcome of one pass through the body of the loop of `Validate`. -/
inductive Step where
  /-- A run-time panic. -/
  | panic
  /-- The function returns this response. -/
  | ret (r : Response)
  /-- The loop goes on with the next position. -/
  | next
  deriving DecidableEq, Repr

/-- The statements under `case "%s":`, which `case "%json":` falls through to. The two type
assertions `desc[i*3+1].(int)` and `desc[i*3+2].(int)` panic on anything but an `int`. -/
def caseString (args : List GoString) (desc : List Iface) (i : Nat) : Step :=
  match desc[i * 3 + 1]? with
  | some (Iface.int minLen) =>
    match desc[i * 3 + 2]? with
    | some (Iface.int maxLen) =>
      match args[i]? with
      | some a =>
        if len a < minLen ∨ len a > maxLen then
          Step.ret (Error 400 (str "Parameter Length Error"))
        else Step.next
      | none => Step.panic
    | _ => Step.panic
  | _ => Step.panic

/-- The statements under `case "%json":`. -/
def caseJson (lib : Lib) (args : List GoString) (desc : List Iface) (i : Nat) : Step :=
  match args[i]? with
  | some a =>
    if lib.jsonUnmarshal a = false then
      Step.ret (Error 400 (str "JSON Payload Not Valid"))
    else caseString args desc i
  | none => Step.panic

/-- The `switch desc[i*3]` statement: the body of the loop at position `i`. -/
def loopBody (lib : Lib) (args : List GoString) (desc : List Iface) (i : Nat) : Step :=
  match desc[i * 3]? with
  | none => Step.panic
  | some tag =>
    if tag = Iface.string (str "%json") then caseJson lib args desc i
    else if tag = Iface.string (str "%s") then caseString args desc i
    else Step.next

/-- The loop `for i := 0; i < nrArgs; i++` of `Validate`, entered at position `i` with `n`
iterations left, followed by the final `return Success(0, "OK", nil)`. -/
def validateLoop (lib : Lib) (args : List GoString) (desc : List Iface) : Nat → Nat → Option Response
  | 0, _ => some (Success 0 (str "OK") none)
  | n + 1, i =>
    match loopBody lib args desc i with
    | Step.panic => none
    | Step.ret r => some r
    | Step.next => validateLoop lib args desc n (i + 1)

/-- Go `Validate(funcName, args, desc...)`. The result `none` is a panic. -/
def Validate (lib : Lib) (funcName : GoString) (args : List GoString) (desc : List Iface) :
    Option Response :=
  let nrArgs := desc.length / 3
  if args.length ≠ nrArgs then some (Error 400 (str "Parameter Mismatch"))
  else validateLoop lib args desc nrArgs 0

/-! ## The chaincode stub -/

/-- A call made on the stub. -/
inductive Call where
  | GetState (key : GoString)
  | SetEvent (name : GoString) (payload : List UInt8)
  | PutState (key : GoString) (value : List UInt8)
  deriving DecidableEq, Repr

/-- The host side of `shim.ChaincodeStubInterface`, as far as the chaincode uses it: the ledger
state, the notifications emitted so far, the calls received so far (oldest first), and the errors
the host answers with. -/
structure Stub where
  /-- The ledger: the value stored under each key; `none` is an absent key. -/
  state : GoString → Option (List UInt8)
  /-- The notifications emitted, oldest first. -/
  events : List (GoString × List UInt8)
  /-- Every call received, oldest first, whether it succeeded or not. -/
  calls : List Call
  /-- The error of `GetState(key)`, if any. -/
  getErr : GoString → Option GoString
  /-- The error of `SetEvent(name, payload)`, if any. -/
  eventErr : GoString → List UInt8 → Option GoString
  /-- The error of `PutState(key, value)`, if any. -/
  putErr : GoString → List UInt8 → Option GoString

/-- Host `stub.GetState(key)`: the value and the error. -/
def Stub.GetState (stub : Stub) (key : GoString) :
    (Option (List UInt8) × Option GoString) × Stub :=
  ((stub.state key, stub.getErr key), { stub with calls := stub.calls ++ [Call.GetState key] })

/-- Host `stub.SetEvent(name, payload)`: the notification is emitted unless the host reports an
error. -/
def Stub.SetEvent (stub : Stub) (name : GoString) (payload : List UInt8) :
    Option GoString × Stub :=
  match stub.eventErr name payload with
  | some e => (some e, { stub with calls := stub.calls ++ [Call.SetEvent name payload] })
  | none =>
    (none, { stub with
      calls := stub.calls ++ [Call.SetEvent name payload]
      events := stub.events ++ [(name, payload)] })

/-- Host `stub.PutState(key, value)`: the ledger maps `key` to `value` afterwards unless the host
reports an error. -/
def Stub.PutState (stub : Stub) (key : GoString) (value : List UInt8) :
    Option GoString × Stub :=
  match stub.putErr key value with
  | some e => (some e, { stub with calls := stub.calls ++ [Call.PutState key value] })
  | none =>
    (none, { stub with
      calls := stub.calls ++ [Call.PutState key value]
      state := fun k => if k = key then some value else stub.state k })

/-! ## Handlers -/

/-- Go `(cc *SmartBulb) Init`. -/
def Init : Response := Success 204 (str "OK") none

/-- Go `read(stub, args)`. -/
def read (lib : Lib) (stub : Stub) (args : List GoString) : Response × Stub :=
  match args with
  | [a] =>
    let id := lib.ToLower a
    match stub.GetState id with
    | ((some value, none), stub1) => (Success 200 (str "OK") (some value), stub1)
    | (_, stub1) => (Error 404 (str "Not Found"), stub1)
  | _ => (Error 400 (str "Parameter Mismatch"), stub)

/-- The descriptor that `write` passes to `Validate`. -/
def writeDesc : List Iface :=
  [Iface.string (str "%s"), Iface.int 1, Iface.int 64,
   Iface.string (str "%json"), Iface.int 2, Iface.int 4096]

/-- Go `write(stub, args)`. The result `none` is a panic. -/
def write (lib : Lib) (stub : Stub) (args : List GoString) : Option (Response × Stub) :=
  match Validate lib (str "create") args writeDesc with
  | none => none
  | some rc =>
    if rc.Status > 0 then some (rc, stub)
    else
      match args[1]? with
      | none => none
      | some a1 =>
        match stub.SetEvent (str "event-name") a1 with
        | (some err, stub1) => some (shimError err, stub1)
        | (none, stub1) =>
          match args[0]? with
          | none => none
          | some a0 =>
            match stub1.PutState a0 a1 with
            | (none, stub2) => some (Success 201 (str "Created") none, stub2)
            | (some err, stub2) => some (Error 500 err, stub2)

/-- Go `(cc *SmartBulb) Invoke`, with the function name and the arguments that
`stub.GetFunctionAndParameters()` returns passed in. The result `none` is a panic. -/
def Invoke (lib : Lib) (stub : Stub) (function : GoString) (args : List GoString) :
    Option (Response × Stub) :=
  if function = str "read" then some (read lib stub args)
  else if function = str "write" then write lib stub args
  else some (Error 501 (str "Invalid method! Valid methods are 'read|write'!"), stub)


/-! ## The argument specification of the design

The design describes the descriptor of `Validate` as a sequence of records; `flatten` is the
variadic form in which the code receives it. -/

/-- The kind of an argument. -/
inductive Kind where
  | PlainString
  | JSONObjectString
  deriving DecidableEq, Repr

/-- One descriptor of an `ArgumentSpec`. -/
structure ArgDesc where
  kind : Kind
  minLength : Int
  maxLength : Int
  deriving DecidableEq, Repr

/-- The type tag `T[i]` of a kind. -/
def Kind.tag : Kind → Iface
  | Kind.PlainString => Iface.string (str "%s")
  | Kind.JSONObjectString => Iface.string (str "%json")

/-- The flat descriptor `T[0], Ta[0], Tb[0], T[1], Ta[1], Tb[1], ...` of a specification. -/
def flatten : List ArgDesc → List Iface
  | [] => []
  | d :: ds => d.kind.tag :: Iface.int d.minLength :: Iface.int d.maxLength :: flatten ds

/-- The JSON requirement on one argument, as the code tests it: whenever the kind is
`JSONObjectString` the argument decodes into the map without error. The decoder accepts the text
`null` besides the JSON objects. -/
def jsonOk (lib : Lib) (a : GoString) (d : ArgDesc) : Prop :=
  d.kind = Kind.JSONObjectString → lib.jsonUnmarshal a = true

/-- The length requirement on one argument. -/
def lengthOk (a : GoString) (d : ArgDesc) : Prop :=
  d.minLength ≤ len a ∧ len a ≤ d.maxLength

/-- The argument `a` violates the descriptor `d`: the kind is `JSONObjectString` and `a` does not
decode into the map, or the length of `a` is outside the bounds. -/
def violation (lib : Lib) (a : GoString) (d : ArgDesc) : Prop :=
  (d.kind = Kind.JSONObjectString ∧ lib.jsonUnmarshal a = false) ∨
    len a < d.minLength ∨ len a > d.maxLength

/-- Position `i` is in violation. -/
def violates (lib : Lib) (args : List GoString) (spec : List ArgDesc) (i : Nat) : Prop :=
  ∃ (a : GoString) (d : ArgDesc), args[i]? = some a ∧ spec[i]? = some d ∧ violation lib a d

/-- The arguments are acceptable for the specification: the arity matches and no position is in
violation. -/
def accepts (lib : Lib) (args : List GoString) (spec : List ArgDesc) : Prop :=
  args.length = spec.length ∧
    ∀ (i : Nat) (a : GoString) (d : ArgDesc),
      args[i]? = some a → spec[i]? = some d → jsonOk lib a d ∧ lengthOk a d

/-- The success result of `Validate`. -/
def okResponse : Response := Success 0 (str "OK") none

/-- The specification with which `write` validates: a key and a JSON value. -/
def writeSpec : List ArgDesc :=
  [{ kind := Kind.PlainString, minLength := 1, maxLength := 64 },
   { kind := Kind.JSONObjectString, minLength := 2, maxLength := 4096 }]

/-! ## A reference instance of the library

Used to evaluate the handlers on concrete inputs. `scanJson` follows the state machine of the
scanner of `encoding/json`; `asciiToLower` is `strings.ToLower` on ASCII text. -/

/-- What the scanner is in the middle of. -/
inductive Frame where
  | objKey
  | objValue
  | arrValue
  deriving DecidableEq, Repr

/-- The step state of the scanner. -/
inductive Scan where
  | beginValue
  | beginValueOrEmpty
  | beginStringOrEmpty
  | beginString
  | inString
  | inStringEsc
  | inStringEscU (left : Nat)
  | neg
  | zero
  | digits
  | dot
  | dot0
  | exp
  | expSign
  | exp0
  | lit (rest : List UInt8)
  | endValue
  | error
  deriving DecidableEq, Repr

/-- JSON white space. -/
def isSpace (c : UInt8) : Bool := c = 32 || c = 9 || c = 13 || c = 10

/-- A decimal digit. -/
def isDigit (c : UInt8) : Bool := 48 ≤ c && c ≤ 57

/-- A hexadecimal digit. -/
def isHex (c : UInt8) : Bool := isDigit c || (97 ≤ c && c ≤ 102) || (65 ≤ c && c ≤ 70)

/-- The scanner after a complete value, reading `c`. -/
def scanEndValue (stack : List Frame) (c : UInt8) : Scan × List Frame :=
  match stack with
  | [] => if isSpace c then (Scan.endValue, []) else (Scan.error, [])
  | Frame.objKey :: fs =>
    if isSpace c then (Scan.endValue, stack)
    else if c = 58 then (Scan.beginValue, Frame.objValue :: fs)
    else (Scan.error, stack)
  | Frame.objValue :: fs =>
    if isSpace c then (Scan.endValue, stack)
    else if c = 44 then (Scan.beginString, Frame.objKey :: fs)
    else if c = 125 then (Scan.endValue, fs)
    else (Scan.error, stack)
  | Frame.arrValue :: fs =>
    if isSpace c then (Scan.endValue, stack)
    else if c = 44 then (Scan.beginValue, stack)
    else if c = 93 then (Scan.endValue, fs)
    else (Scan.error, stack)

/-- The scanner at the beginning of a value, reading `c`. -/
def scanBeginValue (stack : List Frame) (c : UInt8) : Scan × List Frame :=
  if isSpace c then (Scan.beginValue, stack)
  else if c = 123 then (Scan.beginStringOrEmpty, Frame.objKey :: stack)
  else if c = 91 then (Scan.beginValueOrEmpty, Frame.arrValue :: stack)
  else if c = 34 then (Scan.inString, stack)
  else if c = 45 then (Scan.neg, stack)
  else if c = 48 then (Scan.zero, stack)
  else if c = 116 then (Scan.lit (str "rue"), stack)
  else if c = 102 then (Scan.lit (str "alse"), stack)
  else if c = 110 then (Scan.lit (str "ull"), stack)
  else if isDigit c then (Scan.digits, stack)
  else (Scan.error, stack)

/-- One step of the scanner. -/
def scanStep (st : Scan × List Frame) (c : UInt8) : Scan × List Frame :=
  match st with
  | (Scan.beginValue, stack) => scanBeginValue stack c
  | (Scan.beginValueOrEmpty, stack) =>
    if isSpace c then st
    else if c = 93 then scanEndValue stack c
    else scanBeginValue stack c
  | (Scan.beginStringOrEmpty, stack) =>
    if isSpace c then st
    else if c = 125 then scanEndValue (Frame.objValue :: stack.tail) c
    else if c = 34 then (Scan.inString, stack)
    else (Scan.error, stack)
  | (Scan.beginString, stack) =>
    if isSpace c then st
    else if c = 34 then (Scan.inString, stack)
    else (Scan.error, stack)
  | (Scan.inString, stack) =>
    if c = 34 then (Scan.endValue, stack)
    else if c = 92 then (Scan.inStringEsc, stack)
    else if c < 32 then (Scan.error, stack)
    else st
  | (Scan.inStringEsc, stack) =>
    if c = 98 || c = 102 || c = 110 || c = 114 || c = 116 || c = 92 || c = 47 || c = 34 then
      (Scan.inString, stack)
    else if c = 117 then (Scan.inStringEscU 4, stack)
    else (Scan.error, stack)
  | (Scan.inStringEscU left, stack) =>
    if isHex c then (if left ≤ 1 then (Scan.inString, stack) else (Scan.inStringEscU (left - 1), stack))
    else (Scan.error, stack)
  | (Scan.neg, stack) =>
    if c = 48 then (Scan.zero, stack)
    else if isDigit c then (Scan.digits, stack)
    else (Scan.error, stack)
  | (Scan.digits, stack) =>
    if isDigit c then st
    else if c = 46 then (Scan.dot, stack)
    else if c = 101 || c = 69 then (Scan.exp, stack)
    else scanEndValue stack c
  | (Scan.zero, stack) =>
    if c = 46 then (Scan.dot, stack)
    else if c = 101 || c = 69 then (Scan.exp, stack)
    else scanEndValue stack c
  | (Scan.dot, stack) => if isDigit c then (Scan.dot0, stack) else (Scan.error, stack)
  | (Scan.dot0, stack) =>
    if isDigit c then st
    else if c = 101 || c = 69 then (Scan.exp, stack)
    else scanEndValue stack c
  | (Scan.exp, stack) =>
    if c = 43 || c = 45 then (Scan.expSign, stack)
    else if isDigit c then (Scan.exp0, stack)
    else (Scan.error, stack)
  | (Scan.expSign, stack) => if isDigit c then (Scan.exp0, stack) else (Scan.error, stack)
  | (Scan.exp0, stack) => if isDigit c then st else scanEndValue stack c
  | (Scan.lit [], stack) => (Scan.error, stack)
  | (Scan.lit (r :: rest), stack) =>
    if c = r then (if rest = [] then (Scan.endValue, stack) else (Scan.lit rest, stack))
    else (Scan.error, stack)
  | (Scan.endValue, stack) => scanEndValue stack c
  | (Scan.error, stack) => (Scan.error, stack)

/-- The text is one JSON value: the scanner, fed the text and then a space for the end of the
input, stands after a complete top-level value. -/
def scanJson (s : GoString) : Bool :=
  scanStep (s.foldl scanStep (Scan.beginValue, [])) 32 = (Scan.endValue, [])

/-- The first byte of the text that is not white space. -/
def firstByte : GoString → Option UInt8
  | [] => none
  | c :: cs => if isSpace c then firstByte cs else some c

/-- Decoding into a `map[string]interface{}`: the text is one JSON value and that value is an
object or `null`, the two values a map accepts. Library limits that no text evaluated here comes
near (numbers beyond the range of `float64`, nesting depth) are left out. -/
def jsonUnmarshalMap (s : GoString) : Bool :=
  scanJson s && (firstByte s = some 123 || firstByte s = some 110)

/-- The text is one JSON value and that value is an object: what "parses as a JSON object" says
of a text. The text `null` is no object. -/
def isJsonObject (s : GoString) : Bool :=
  scanJson s && firstByte s = some 123

/-- Lower-casing of the ASCII letters, which is `strings.ToLower` on ASCII text. -/
def asciiToLower (s : GoString) : GoString :=
  s.map fun c => if 65 ≤ c && c ≤ 90 then c + 32 else c

/-- The reference instance of the library. -/
def refLib : Lib := { jsonUnmarshal := jsonUnmarshalMap, ToLower := asciiToLower }

/-- The outcome of the loop body for an argument `a` under the descriptor `d`: the JSON check
first, then the length check. -/
def verdict (lib : Lib) (a : GoString) (d : ArgDesc) : Step :=
  if d.kind = Kind.JSONObjectString ∧ lib.jsonUnmarshal a = false then
    Step.ret (Error 400 (str "JSON Payload Not Valid"))
  else if len a < d.minLength ∨ len a > d.maxLength then
    Step.ret (Error 400 (str "Parameter Length Error"))
  else Step.next

/-- The message reported for a violation by the argument `a` under the descriptor `d`. -/
def violationMessage (lib : Lib) (a : GoString) (d : ArgDesc) : GoString :=
  if d.kind = Kind.JSONObjectString ∧ lib.jsonUnmarshal a = false then
    str "JSON Payload Not Valid"
  else str "Parameter Length Error"

/-- A specification with the JSON value first and the key second. -/
def valueKeySpec : List ArgDesc :=
  [{ kind := Kind.JSONObjectString, minLength := 2, maxLength := 4096 },
   { kind := Kind.PlainString, minLength := 1, maxLength := 64 }]

/-- A stub with an empty ledger whose calls all succeed. -/
def emptyStub : Stub :=
  { state := fun _ => none
    events := []
    calls := []
    getErr := fun _ => none
    eventErr := fun _ _ => none
    putErr := fun _ _ => none }

/-- A stub whose ledger holds the empty, non-nil value under the key "key1". -/
def emptyValueStub : Stub :=
  { emptyStub with state := fun k => if k = str "key1" then some [] else none }

/-- A stub whose event transport fails. -/
def eventFailStub : Stub :=
  { emptyStub with eventErr := fun _ _ => some (str "event transport down") }

/-- A stub whose ledger holds a record under the key "key1". -/
def recordStub : Stub :=
  { emptyStub with state := fun k => if k = str "key1" then some (str "\x7b\"a\":1\x7d") else none }

/-- A stub whose ledger refuses the put. -/
def putFailStub : Stub :=
  { emptyStub with putErr := fun _ _ => some (str "ledger unavailable") }

/-- A stub whose ledger holds a record under "key1" and whose queries fail. -/
def getFailStub : Stub :=
  { recordStub with getErr := fun _ => some (str "ledger unavailable") }
/-- The stub after `write` of `{"state":"on"}` under "bulb1" on the empty stub. -/
def bulbWritten : Stub :=
  { emptyStub with
    calls := [Call.SetEvent (str "event-name") (str "\x7b\"state\":\"on\"\x7d"),
      Call.PutState (str "bulb1") (str "\x7b\"state\":\"on\"\x7d")]
    events := [(str "event-name", str "\x7b\"state\":\"on\"\x7d")]
    state := fun k =>
      if k = str "bulb1" then some (str "\x7b\"state\":\"on\"\x7d") else emptyStub.state k }
/-- Every record of the ledger has a key of 1 to 64 bytes and a value of 2 to 4096 bytes that
decodes into the map without error: a JSON object or the text `null`. -/
def validLedger (lib : Lib) (stub : Stub) : Prop :=
  ∀ (k : GoString) (v : List UInt8), stub.state k = some v →
    1 ≤ len k ∧ len k ≤ 64 ∧ 2 ≤ len v ∧ len v ≤ 4096 ∧ lib.jsonUnmarshal v = true

/-- One invocation by the host: the function name, the arguments, and the errors with which the
host answers the calls made during it. -/
structure Invocation where
  function : GoString
  args : List GoString
  getErr : GoString → Option GoString
  eventErr : GoString → List UInt8 → Option GoString
  putErr : GoString → List UInt8 → Option GoString

/-- A sequence of invocations, each run on the stub the previous one left. The result `none` is
a panic. -/
def runInvocations (lib : Lib) : Stub → List Invocation → Option Stub
  | stub, [] => some stub
  | stub, inv :: rest =>
    match Invoke lib
        { stub with getErr := inv.getErr, eventErr := inv.eventErr, putErr := inv.putErr }
        inv.function inv.args with
    | none => none
    | some (_, stub') => runInvocations lib stub' rest

/-- A sequence of invocations: a write, an unknown function, a write of an invalid value, a write
whose put fails, and a read. -/
def sampleInvocations : List Invocation :=
  [{ function := str "write", args := [str "bulb1", str "\x7b\"state\":\"on\"\x7d"],
     getErr := fun _ => none, eventErr := fun _ _ => none, putErr := fun _ _ => none },
   { function := str "delete", args := [],
     getErr := fun _ => none, eventErr := fun _ _ => none, putErr := fun _ _ => none },
   { function := str "write", args := [str "bulb2", str "on"],
     getErr := fun _ => none, eventErr := fun _ _ => none, putErr := fun _ _ => none },
   { function := str "write", args := [str "bulb3", str "\x7b\x7d"],
     getErr := fun _ => none, eventErr := fun _ _ => none,
     putErr := fun _ _ => some (str "ledger unavailable") },
   { function := str "read", args := [str "BULB1"],
     getErr := fun _ => none, eventErr := fun _ _ => none, putErr := fun _ _ => none }]
/-- The tag at position `i` of a flat descriptor is one of the two that `Validate` knows. -/
def isTagged (desc : List Iface) (i : Nat) : Bool :=
  desc[i * 3]? = some (Iface.string (str "%json")) ||
    desc[i * 3]? = some (Iface.string (str "%s"))

/-- The positions of a flat descriptor that carry one of the two known tags, in order. -/
def taggedPositions (desc : List Iface) : List Nat :=
  (List.range (desc.length / 3)).filter (isTagged desc)

/-- The check of the given positions only, in the given order: the first position whose check
returns decides. -/
def checkPositions (lib : Lib) (args : List GoString) (desc : List Iface) :
    List Nat → Option Response
  | [] => some (Success 0 (str "OK") none)
  | i :: rest =>
    match loopBody lib args desc i with
    | Step.panic => none
    | Step.ret r => some r
    | Step.next => checkPositions lib args desc rest

/-- A flat descriptor of eight entries: two groups and two trailing entries. -/
def raggedDesc : List Iface :=
  [Iface.string (str "%s"), Iface.int 1, Iface.int 3,
   Iface.string (str "%json"), Iface.int 2, Iface.int 10,
   Iface.string (str "%s"), Iface.other]

/-- A flat descriptor whose first group carries the unknown tag "%d" and no bounds. -/
def mixedDesc : List Iface :=
  [Iface.string (str "%d"), Iface.other, Iface.string (str "x"),
   Iface.string (str "%s"), Iface.int 1, Iface.int 3]

/-! ## The flat descriptor -/

theorem flatten_length (spec : List ArgDesc) : (flatten spec).length = spec.length * 3 := by
  induction spec with
  | nil => rfl
  | cons d ds ih => simp [flatten, ih]; omega

theorem flatten_tag (spec : List ArgDesc) (i : Nat) :
    (flatten spec)[i * 3]? = (spec[i]?).map fun d => d.kind.tag := by
  induction spec generalizing i with
  | nil => simp [flatten]
  | cons d ds ih =>
    cases i with
    | zero => simp [flatten]
    | succ i =>
      have h : (i + 1) * 3 = i * 3 + 1 + 1 + 1 := by omega
      rw [h]
      simp [flatten, ih]

theorem flatten_min (spec : List ArgDesc) (i : Nat) :
    (flatten spec)[i * 3 + 1]? = (spec[i]?).map fun d => Iface.int d.minLength := by
  induction spec generalizing i with
  | nil => simp [flatten]
  | cons d ds ih =>
    cases i with
    | zero => simp [flatten]
    | succ i =>
      have h : (i + 1) * 3 + 1 = (i * 3 + 1) + 1 + 1 + 1 := by omega
      rw [h]
      simp [flatten, ih]

theorem flatten_max (spec : List ArgDesc) (i : Nat) :
    (flatten spec)[i * 3 + 2]? = (spec[i]?).map fun d => Iface.int d.maxLength := by
  induction spec generalizing i with
  | nil => simp [flatten]
  | cons d ds ih =>
    cases i with
    | zero => simp [flatten]
    | succ i =>
      have h : (i + 1) * 3 + 2 = (i * 3 + 2) + 1 + 1 + 1 := by omega
      rw [h]
      simp [flatten, ih]

theorem tag_string_ne_json : str "%s" ≠ str "%json" := by decide

/-- On a flattened specification the loop body at a position is the verdict on the argument and
the descriptor there. -/
theorem loopBody_flatten (lib : Lib) (args : List GoString) (spec : List ArgDesc) (i : Nat)
    (a : GoString) (d : ArgDesc) (ha : args[i]? = some a) (hd : spec[i]? = some d) :
    loopBody lib args (flatten spec) i = verdict lib a d := by
  unfold loopBody caseJson caseString verdict
  rw [flatten_tag, flatten_min, flatten_max, hd, ha]
  cases hk : d.kind <;> cases hj : lib.jsonUnmarshal a <;>
    simp [Kind.tag, tag_string_ne_json, hk, hj]


/-! ## The loop of `Validate` -/

/-- When every remaining position lets the loop go on, the loop ends in the success result. -/
theorem validateLoop_all_next (lib : Lib) (args : List GoString) (desc : List Iface) (n i : Nat)
    (h : ∀ j, i ≤ j → j < i + n → loopBody lib args desc j = Step.next) :
    validateLoop lib args desc n i = some okResponse := by
  induction n generalizing i with
  | zero => rfl
  | succ n ih =>
    unfold validateLoop
    rw [h i (Nat.le_refl i) (by omega)]
    exact ih (i + 1) fun j h1 h2 => h j (by omega) (by omega)

/-- The loop returns at the first position whose body returns. -/
theorem validateLoop_first_ret (lib : Lib) (args : List GoString) (desc : List Iface)
    (n i k : Nat) (r : Response) (hik : i ≤ k) (hkn : k < i + n)
    (hnext : ∀ j, i ≤ j → j < k → loopBody lib args desc j = Step.next)
    (hret : loopBody lib args desc k = Step.ret r) :
    validateLoop lib args desc n i = some r := by
  induction n generalizing i with
  | zero => omega
  | succ n ih =>
    unfold validateLoop
    by_cases hk : i = k
    · subst hk
      rw [hret]
    · rw [hnext i (Nat.le_refl i) (by omega)]
      exact ih (i + 1) (by omega) (by omega) fun j h1 h2 => hnext j (by omega) h2

theorem verdict_next_iff (lib : Lib) (a : GoString) (d : ArgDesc) :
    verdict lib a d = Step.next ↔ jsonOk lib a d ∧ lengthOk a d := by
  unfold verdict jsonOk lengthOk
  cases hj : lib.jsonUnmarshal a <;> by_cases hk : d.kind = Kind.JSONObjectString <;>
    by_cases hl : len a < d.minLength ∨ len a > d.maxLength <;> simp [hk, hl] <;> omega

theorem violation_iff (lib : Lib) (a : GoString) (d : ArgDesc) :
    violation lib a d ↔ ¬ (jsonOk lib a d ∧ lengthOk a d) := by
  unfold violation jsonOk lengthOk
  cases hj : lib.jsonUnmarshal a <;> by_cases hk : d.kind = Kind.JSONObjectString <;>
    simp [hk] <;> omega

theorem verdict_of_violation (lib : Lib) (a : GoString) (d : ArgDesc)
    (h : violation lib a d) :
    verdict lib a d = Step.ret (Error 400 (violationMessage lib a d)) := by
  have h1 : verdict lib a d ≠ Step.next :=
    fun e => (violation_iff lib a d).1 h ((verdict_next_iff lib a d).1 e)
  unfold verdict violationMessage at *
  by_cases hj : d.kind = Kind.JSONObjectString ∧ lib.jsonUnmarshal a = false
  · simp [hj]
  · by_cases hl : len a < d.minLength ∨ len a > d.maxLength
    · simp [hj, hl]
    · simp [hj, hl] at h1

/-- A position in violation has a least position in violation at or before it. -/
theorem exists_least_violation (lib : Lib) (args : List GoString) (spec : List ArgDesc) (i : Nat)
    (h : violates lib args spec i) :
    ∃ k, k ≤ i ∧ violates lib args spec k ∧ ∀ j, j < k → ¬ violates lib args spec j := by
  classical
  exact ⟨Nat.find ⟨i, h⟩, Nat.find_min' _ h, Nat.find_spec ⟨i, h⟩,
    fun j hj => Nat.find_min ⟨i, h⟩ hj⟩

/-- With matching arity, `Validate` reports the least position in violation. -/
theorem Validate_least_violation (lib : Lib) (funcName : GoString) (args : List GoString)
    (spec : List ArgDesc) (k : Nat) (a : GoString) (d : ArgDesc)
    (hlen : args.length = spec.length) (ha : args[k]? = some a) (hd : spec[k]? = some d)
    (hbad : violation lib a d)
    (hleast : ∀ j, j < k → ¬ violates lib args spec j) :
    Validate lib funcName args (flatten spec) = some (Error 400 (violationMessage lib a d)) := by
  have hk : k < spec.length := by
    rcases Nat.lt_or_ge k spec.length with h | h
    · exact h
    · rw [List.getElem?_eq_none h] at hd; cases hd
  unfold Validate
  simp only [flatten_length, Nat.mul_div_cancel _ (by decide : 0 < 3), hlen, ne_eq,
    not_true_eq_false, if_false]
  apply validateLoop_first_ret lib args (flatten spec) spec.length 0 k _ (Nat.zero_le k) (by omega)
  · intro j _ hjk
    have hj1 : j < args.length := by omega
    have hj2 : j < spec.length := by omega
    rw [loopBody_flatten lib args spec j args[j] spec[j]
      (List.getElem?_eq_getElem hj1) (List.getElem?_eq_getElem hj2)]
    rw [verdict_next_iff]
    by_contra hc
    exact hleast j hjk ⟨args[j], spec[j], List.getElem?_eq_getElem hj1,
      List.getElem?_eq_getElem hj2, (violation_iff lib _ _).2 hc⟩
  · rw [loopBody_flatten lib args spec k a d ha hd]
    exact verdict_of_violation lib a d hbad

/-- With matching arity and no position in violation, `Validate` succeeds. -/
theorem Validate_of_accepts (lib : Lib) (funcName : GoString) (args : List GoString)
    (spec : List ArgDesc) (h : accepts lib args spec) :
    Validate lib funcName args (flatten spec) = some okResponse := by
  obtain ⟨hlen, hall⟩ := h
  unfold Validate
  simp only [flatten_length, Nat.mul_div_cancel _ (by decide : 0 < 3), hlen, ne_eq,
    not_true_eq_false, if_false]
  apply validateLoop_all_next
  intro j _ hj
  have hj1 : j < args.length := by omega
  have hj2 : j < spec.length := by omega
  rw [loopBody_flatten lib args spec j args[j] spec[j]
    (List.getElem?_eq_getElem hj1) (List.getElem?_eq_getElem hj2), verdict_next_iff]
  exact hall j args[j] spec[j] (List.getElem?_eq_getElem hj1) (List.getElem?_eq_getElem hj2)

/-- On a flattened specification `Validate` returns, and its result is the success result
exactly when the arguments are acceptable; any other result has status 400. -/
theorem Validate_flatten_cases (lib : Lib) (funcName : GoString) (args : List GoString)
    (spec : List ArgDesc) :
    (accepts lib args spec ∧ Validate lib funcName args (flatten spec) = some okResponse) ∨
    (¬ accepts lib args spec ∧
      ∃ msg, Validate lib funcName args (flatten spec) = some (Error 400 msg)) := by
  by_cases hacc : accepts lib args spec
  · exact Or.inl ⟨hacc, Validate_of_accepts lib funcName args spec hacc⟩
  · refine Or.inr ⟨hacc, ?_⟩
    by_cases hlen : args.length = spec.length
    · have hex : ∃ i, violates lib args spec i := by
        by_contra hne
        apply hacc
        refine ⟨hlen, fun i a d ha hd => ?_⟩
        by_contra hc
        exact hne ⟨i, a, d, ha, hd, (violation_iff lib a d).2 hc⟩
      obtain ⟨i, hi⟩ := hex
      obtain ⟨k, _, ⟨a, d, ha, hd, hbad⟩, hleast⟩ := exists_least_violation lib args spec i hi
      exact ⟨_, Validate_least_violation lib funcName args spec k a d hlen ha hd hbad hleast⟩
    · refine ⟨str "Parameter Mismatch", ?_⟩
      unfold Validate
      simp [flatten_length, hlen]


theorem Error_ne_okResponse (msg : GoString) : Error 400 msg ≠ okResponse := by
  intro h
  have h1 := congrArg Response.Status h
  simp [Error, okResponse, Success] at h1

/-! ## Claims on `Validate` -/

/-- The reference decoder accepts exactly the JSON objects and the JSON value `null`. -/
theorem jsonUnmarshalMap_iff (s : GoString) :
    jsonUnmarshalMap s = true ↔
      isJsonObject s = true ∨ (scanJson s = true ∧ firstByte s = some 110) := by
  unfold jsonUnmarshalMap isJsonObject
  cases scanJson s <;> simp

/-- C1, as stated, fails at `write` with the arguments "k" and `null`: position 1 is of kind
`JSONObjectString` and `null` is no JSON object, yet `Validate` returns the success result. -/
theorem Validate_success_counterexample :
    writeSpec[1]? =
      some { kind := Kind.JSONObjectString, minLength := 2, maxLength := 4096 } ∧
    [str "k", str "null"][1]? = some (str "null") ∧
    isJsonObject (str "null") = false ∧
    Validate refLib (str "create") [str "k", str "null"] (flatten writeSpec) =
      some (Success 0 (str "OK") none) := by
  decide

/-- C1, amended: for every function name, argument list and specification, `Validate` returns
the success result (status 0, message "OK", no payload) if and only if the number of arguments
equals the length of the specification and every argument decodes into the map without error (a
JSON object or the text `null`) where the kind is `JSONObjectString` and has a length within the
bounds; in every other case it returns a result with status 400; with the empty specification it
succeeds exactly when there is no argument. -/
theorem Validate_success_iff (lib : Lib) (funcName : GoString) (args : List GoString)
    (spec : List ArgDesc) :
    (Validate lib funcName args (flatten spec) = some (Success 0 (str "OK") none) ↔
      accepts lib args spec) ∧
    (accepts lib args spec ∨
      ∃ r, Validate lib funcName args (flatten spec) = some r ∧ r.Status = 400) ∧
    (Validate lib funcName args (flatten []) = some (Success 0 (str "OK") none) ↔ args = []) := by
  have key : ∀ sp : List ArgDesc,
      (Validate lib funcName args (flatten sp) = some (Success 0 (str "OK") none) ↔
        accepts lib args sp) := by
    intro sp
    rcases Validate_flatten_cases lib funcName args sp with ⟨hacc, hv⟩ | ⟨hacc, msg, hv⟩
    · exact ⟨fun _ => hacc, fun _ => hv⟩
    · refine ⟨fun h => ?_, fun h => absurd h hacc⟩
      rw [hv] at h
      exact absurd (Option.some.inj h) (Error_ne_okResponse msg)
  refine ⟨key spec, ?_, ?_⟩
  · rcases Validate_flatten_cases lib funcName args spec with ⟨hacc, _⟩ | ⟨_, msg, hv⟩
    · exact Or.inl hacc
    · exact Or.inr ⟨_, hv, rfl⟩
  · rw [key []]
    constructor
    · intro h
      exact List.length_eq_zero.1 h.1
    · intro h
      subst h
      exact ⟨rfl, fun i a d ha _ => by simp at ha⟩

/-- C8, as stated, fails at `write` with the arguments "k" and `null`: position 0 is within its
bounds, position 1 is of kind `JSONObjectString` and `null` is no JSON object, so position 1 is
the least failing position, yet `Validate` returns the success result and not status 400
"JSON Payload Not Valid". -/
theorem Validate_first_violation_counterexample :
    (1 ≤ len (str "k") ∧ len (str "k") ≤ 64) ∧
    writeSpec[1]? =
      some { kind := Kind.JSONObjectString, minLength := 2, maxLength := 4096 } ∧
    isJsonObject (str "null") = false ∧
    Validate refLib (str "create") [str "k", str "null"] (flatten writeSpec) =
      some (Success 0 (str "OK") none) ∧
    Validate refLib (str "create") [str "k", str "null"] (flatten writeSpec) ≠
      some (Error 400 (str "JSON Payload Not Valid")) := by
  decide

/-- C8, amended: when the arities match and position `i` is the least position at which the kind
is `JSONObjectString` and the argument does not decode into the map (it is neither a JSON object
nor the text `null`), or the length is outside the bounds, `Validate` returns status 400 with the
message "JSON Payload Not Valid" if the kind at `i` is `JSONObjectString` and the argument there
does not decode (whatever its length), and with "Parameter Length Error" otherwise; replacing the
arguments after position `i` does not change the result. -/
theorem Validate_first_violation (lib : Lib) (funcName : GoString) (args : List GoString)
    (spec : List ArgDesc) (i : Nat) (a : GoString) (d : ArgDesc)
    (hlen : args.length = spec.length) (ha : args[i]? = some a) (hd : spec[i]? = some d)
    (hbad : violation lib a d) (hleast : ∀ j, j < i → ¬ violates lib args spec j) :
    Validate lib funcName args (flatten spec) =
      some (Error 400
        (if d.kind = Kind.JSONObjectString ∧ lib.jsonUnmarshal a = false then
          str "JSON Payload Not Valid"
        else str "Parameter Length Error")) ∧
    ∀ args' : List GoString, args'.length = args.length →
      (∀ j, j ≤ i → args'[j]? = args[j]?) →
      Validate lib funcName args' (flatten spec) = Validate lib funcName args (flatten spec) := by
  have h1 := Validate_least_violation lib funcName args spec i a d hlen ha hd hbad hleast
  refine ⟨h1, fun args' hlen' hagree => ?_⟩
  rw [h1]
  apply Validate_least_violation lib funcName args' spec i a d (hlen'.trans hlen)
    ((hagree i (Nat.le_refl i)).trans ha) hd hbad
  rintro j hj ⟨b, e, hb, he, hv⟩
  exact hleast j hj ⟨b, e, (hagree j (Nat.le_of_lt hj)).symm.trans hb, he, hv⟩

/-- C8, amended, with the JSON value first: the value "x" does not decode and is also shorter
than 2 bytes, the message is "JSON Payload Not Valid", and the result is the same whatever the
key at the later position is. -/
theorem Validate_first_violation_witness :
    len (str "x") < 2 ∧
    Validate refLib (str "f") [str "x", str ""] (flatten valueKeySpec) =
      some (Error 400 (str "JSON Payload Not Valid")) ∧
    Validate refLib (str "f") [str "x", str "bulb1"] (flatten valueKeySpec) =
      Validate refLib (str "f") [str "x", str ""] (flatten valueKeySpec) :=
  have h := Validate_first_violation refLib (str "f") [str "x", str ""] valueKeySpec 0
    (str "x") { kind := Kind.JSONObjectString, minLength := 2, maxLength := 4096 }
    rfl rfl rfl (Or.inl ⟨rfl, by decide⟩) (fun j hj => absurd hj (Nat.not_lt_zero j))
  ⟨by decide, h.1, h.2 [str "x", str "bulb1"] rfl fun j hj => by
    have hj0 : j = 0 := by omega
    subst hj0
    rfl⟩

/-- C9, as stated, fails at `write` with the arguments "k" and "x": the value at position 1 is
shorter than 2 bytes and the only earlier position is a plain string, yet the message is
"JSON Payload Not Valid" and not "Parameter Length Error". -/
theorem Validate_length_error_counterexample :
    len (str "x") < 2 ∧
    (∀ j b e, j < 1 → [str "k", str "x"][j]? = some b → writeSpec[j]? = some e →
      e.kind = Kind.JSONObjectString → refLib.jsonUnmarshal b = true) ∧
    Validate refLib (str "create") [str "k", str "x"] (flatten writeSpec) =
      some (Error 400 (str "JSON Payload Not Valid")) ∧
    Validate refLib (str "create") [str "k", str "x"] (flatten writeSpec) ≠
      some (Error 400 (str "Parameter Length Error")) := by
  refine ⟨by decide, ?_, by decide, by decide⟩
  intro j b e hj hb he hk
  have hj0 : j = 0 := by omega
  subst hj0
  cases he
  cases hk

/-- C9, amended: when the arities match, the length of the argument at position `i` is outside
the bounds and no argument of kind `JSONObjectString` at position `i` or earlier fails to parse,
`Validate` returns status 400 with the message "Parameter Length Error". -/
theorem Validate_length_error (lib : Lib) (funcName : GoString) (args : List GoString)
    (spec : List ArgDesc) (i : Nat) (a : GoString) (d : ArgDesc)
    (hlen : args.length = spec.length) (ha : args[i]? = some a) (hd : spec[i]? = some d)
    (hout : len a < d.minLength ∨ len a > d.maxLength)
    (hjson : ∀ j b e, j ≤ i → args[j]? = some b → spec[j]? = some e →
      e.kind = Kind.JSONObjectString → lib.jsonUnmarshal b = true) :
    Validate lib funcName args (flatten spec) =
      some (Error 400 (str "Parameter Length Error")) := by
  obtain ⟨k, hk, ⟨b, e, hb, he, hv⟩, hleast⟩ :=
    exists_least_violation lib args spec i ⟨a, d, ha, hd, Or.inr hout⟩
  rw [Validate_least_violation lib funcName args spec k b e hlen hb he hv hleast]
  unfold violationMessage
  rw [if_neg]
  rintro ⟨hkind, hfalse⟩
  rw [hjson k b e hk hb he hkind] at hfalse
  cases hfalse

/-- C9, amended, at `write` with a key of 65 bytes: "Parameter Length Error". -/
theorem Validate_length_error_witness :
    Validate refLib (str "create") [List.replicate 65 97, str "\x7b\x7d"] (flatten writeSpec) =
      some (Error 400 (str "Parameter Length Error")) :=
  Validate_length_error refLib (str "create") [List.replicate 65 97, str "\x7b\x7d"] writeSpec 0
    (List.replicate 65 97) { kind := Kind.PlainString, minLength := 1, maxLength := 64 }
    rfl rfl rfl (Or.inr (by decide))
    (by
      intro j b e hj hb he hk
      have hj0 : j = 0 := by omega
      subst hj0
      cases he
      cases hk)


/-! ## Claims on `write`, `read` and `Invoke` -/

theorem flatten_writeSpec : flatten writeSpec = writeDesc := rfl

/-- Arguments that pass the validation of `write` are a key and a value within the bounds, the
value parsing as JSON. -/
theorem valid_write_args (lib : Lib) (funcName : GoString) (args : List GoString)
    (h : Validate lib funcName args (flatten writeSpec) = some okResponse) :
    ∃ k v, args = [k, v] ∧ 1 ≤ len k ∧ len k ≤ 64 ∧ 2 ≤ len v ∧ len v ≤ 4096 ∧
      lib.jsonUnmarshal v = true := by
  have hacc : accepts lib args writeSpec := by
    rcases Validate_flatten_cases lib funcName args writeSpec with ⟨hacc, _⟩ | ⟨_, msg, hv⟩
    · exact hacc
    · rw [hv] at h
      exact absurd (Option.some.inj h) (Error_ne_okResponse msg)
  obtain ⟨hlen, hall⟩ := hacc
  match args, hlen, hall with
  | [k, v], _, hall =>
    have h0 := hall 0 k _ rfl rfl
    have h1 := hall 1 v _ rfl rfl
    exact ⟨k, v, rfl, h0.2.1, h0.2.2, h1.2.1, h1.2.2, h1.1 rfl⟩

/-- A key and a value within the bounds, the value parsing as JSON, pass the validation of
`write`. -/
theorem accepts_write_args (lib : Lib) (k v : GoString) (hk1 : 1 ≤ len k) (hk2 : len k ≤ 64)
    (hv1 : 2 ≤ len v) (hv2 : len v ≤ 4096) (hjson : lib.jsonUnmarshal v = true) :
    accepts lib [k, v] writeSpec := by
  refine ⟨rfl, fun i a d ha hd => ?_⟩
  match i, ha, hd with
  | 0, ha, hd =>
    cases ha
    cases hd
    exact ⟨fun hc => (nomatch hc), ⟨hk1, hk2⟩⟩
  | 1, ha, hd =>
    cases ha
    cases hd
    exact ⟨fun _ => hjson, ⟨hv1, hv2⟩⟩
  | n + 2, ha, _ => simp at ha

/-- After a successful validation `write` emits the event and then puts the state. -/
theorem write_of_valid (lib : Lib) (stub : Stub) (k v : GoString)
    (h : Validate lib (str "create") [k, v] (flatten writeSpec) = some okResponse) :
    write lib stub [k, v] =
      match stub.SetEvent (str "event-name") v with
      | (some err, stub1) => some (shimError err, stub1)
      | (none, stub1) =>
        match stub1.PutState k v with
        | (none, stub2) => some (Success 201 (str "Created") none, stub2)
        | (some err, stub2) => some (Error 500 err, stub2) := by
  rw [flatten_writeSpec] at h
  unfold write
  rw [h]
  simp [okResponse, Success]

/-- C2: for a key of 1 to 64 bytes and a value of 2 to 4096 bytes that parses as JSON, when the
emission of the event and the put succeed, `write` returns status 201 "Created" without payload,
emits exactly one notification "event-name" carrying the bytes of the value, and leaves a ledger
that maps the key, unmodified, to the bytes of the value and any other key as before. -/
theorem write_created (lib : Lib) (stub : Stub) (k v : GoString)
    (hk1 : 1 ≤ len k) (hk2 : len k ≤ 64) (hv1 : 2 ≤ len v) (hv2 : len v ≤ 4096)
    (hjson : lib.jsonUnmarshal v = true)
    (hev : stub.eventErr (str "event-name") v = none) (hput : stub.putErr k v = none) :
    ∃ stub', write lib stub [k, v] = some (Success 201 (str "Created") none, stub') ∧
      stub'.events = stub.events ++ [(str "event-name", v)] ∧
      stub'.calls = stub.calls ++ [Call.SetEvent (str "event-name") v, Call.PutState k v] ∧
      stub'.state k = some v ∧
      ∀ k', k' ≠ k → stub'.state k' = stub.state k' := by
  rw [write_of_valid lib stub k v
    (Validate_of_accepts lib _ _ _ (accepts_write_args lib k v hk1 hk2 hv1 hv2 hjson))]
  simp only [Stub.SetEvent, hev, Stub.PutState, hput]
  refine ⟨_, rfl, rfl, ?_, ?_, ?_⟩
  · simp
  · simp
  · intro k' hk'
    simp [hk']

/-- C2 on the empty ledger with the key "bulb1" and the value `{"state":"on"}`. -/
theorem write_created_witness :
    ∃ stub', write refLib emptyStub [str "bulb1", str "\x7b\"state\":\"on\"\x7d"] =
        some (Success 201 (str "Created") none, stub') ∧
      stub'.events = emptyStub.events ++ [(str "event-name", str "\x7b\"state\":\"on\"\x7d")] ∧
      stub'.calls = emptyStub.calls ++
        [Call.SetEvent (str "event-name") (str "\x7b\"state\":\"on\"\x7d"),
         Call.PutState (str "bulb1") (str "\x7b\"state\":\"on\"\x7d")] ∧
      stub'.state (str "bulb1") = some (str "\x7b\"state\":\"on\"\x7d") ∧
      ∀ k', k' ≠ str "bulb1" → stub'.state k' = emptyStub.state k' :=
  write_created refLib emptyStub (str "bulb1") (str "\x7b\"state\":\"on\"\x7d")
    (by decide) (by decide) (by decide) (by decide) (by decide) rfl rfl

/-- C3 fails on the code: on the empty ledger `write` of the key "Key1" with the value `{"a":1}`
returns status 201, and the following `read` of the lower-cased key "key1" returns status 404
"Not Found". -/
theorem write_then_read_lowercase_not_found :
    refLib.ToLower (str "Key1") = str "key1" ∧
    (write refLib emptyStub [str "Key1", str "\x7b\"a\":1\x7d"]).map
        (fun p => (p.1, (read refLib p.2 [str "key1"]).1)) =
      some (Success 201 (str "Created") none, Error 404 (str "Not Found")) := by
  decide

/-- C4: when the validation of `write` fails, `write` returns the very result of `Validate` and
the stub is as before: no notification, no change of the ledger, no call at all. -/
theorem write_validation_failure (lib : Lib) (stub : Stub) (args : List GoString) (r : Response)
    (hv : Validate lib (str "create") args (flatten writeSpec) = some r)
    (hfail : r ≠ Success 0 (str "OK") none) :
    write lib stub args = some (r, stub) := by
  rcases Validate_flatten_cases lib (str "create") args writeSpec with ⟨_, hok⟩ | ⟨_, msg, herr⟩
  · rw [hok] at hv
    exact absurd (Option.some.inj hv).symm hfail
  · rw [hv] at herr
    have hr : r = Error 400 msg := Option.some.inj herr
    rw [flatten_writeSpec] at hv
    unfold write
    rw [hv, hr]
    simp [Error]

/-- C4 for a value that is not JSON. -/
theorem write_validation_failure_witness :
    write refLib emptyStub [str "bulb1", str "on"] =
      some (Error 400 (str "JSON Payload Not Valid"), emptyStub) :=
  write_validation_failure refLib emptyStub [str "bulb1", str "on"]
    (Error 400 (str "JSON Payload Not Valid")) (by decide) (by decide)


/-- C5: `read` with other than one argument returns status 400 "Parameter Mismatch" whatever the
stub and makes no call; with one argument it queries the ledger at the lower-cased argument; a
non-empty value without error gives status 200 with that value as payload; an error or a nil
value gives status 404 "Not Found"; two arguments with the same lower-casing give the same
result. -/
theorem read_reference (lib : Lib) (stub : Stub) :
    (∀ (other : Stub) (args : List GoString), args.length ≠ 1 →
      (read lib stub args).1 = Error 400 (str "Parameter Mismatch") ∧
      (read lib other args).1 = (read lib stub args).1 ∧
      (read lib stub args).2 = stub) ∧
    (∀ k : GoString,
      (read lib stub [k]).2.calls = stub.calls ++ [Call.GetState (lib.ToLower k)]) ∧
    (∀ (k : GoString) (value : List UInt8),
      (stub.GetState (lib.ToLower k)).1 = (some value, none) → value ≠ [] →
      (read lib stub [k]).1 = Success 200 (str "OK") (some value)) ∧
    (∀ (k : GoString) (value : Option (List UInt8)) (err : Option GoString),
      (stub.GetState (lib.ToLower k)).1 = (value, err) → err ≠ none ∨ value = none →
      (read lib stub [k]).1 = Error 404 (str "Not Found")) ∧
    (∀ k1 k2 : GoString, lib.ToLower k1 = lib.ToLower k2 →
      read lib stub [k1] = read lib stub [k2]) := by
  refine ⟨?_, ?_, ?_, ?_, ?_⟩
  · intro other args hlen
    match args, hlen with
    | [], _ => exact ⟨rfl, rfl, rfl⟩
    | [_], h => exact absurd rfl h
    | _ :: _ :: _, _ => exact ⟨rfl, rfl, rfl⟩
  · intro k
    simp only [read, Stub.GetState]
    split <;> (rename_i h; simp only [Prod.mk.injEq] at h; rw [← h.2])
  · intro k value h _
    unfold read
    unfold Stub.GetState at *
    simp only [Prod.mk.injEq] at h
    simp only [h.1, h.2]
  · intro k value err h hor
    unfold read
    unfold Stub.GetState at *
    simp only [Prod.mk.injEq] at h
    simp only [h.1, h.2]
    rcases hor with herr | hval
    · cases err with
      | none => exact absurd rfl herr
      | some e => cases value <;> rfl
    · subst hval
      rfl
  · intro k1 k2 h
    unfold read
    simp only [h]

/-- C5 at concrete inputs: a missing key on the empty ledger gives 404, a stored record is found
under any letter case of its key, and no argument gives 400. -/
theorem read_reference_witness :
    (read refLib emptyStub [str "missing-key"]).1 = Error 404 (str "Not Found") ∧
    (read refLib recordStub [str "KEY1"]).1 =
      Success 200 (str "OK") (some (str "\x7b\"a\":1\x7d")) ∧
    read refLib recordStub [str "KEY1"] = read refLib recordStub [str "Key1"] ∧
    (read refLib recordStub []).1 = Error 400 (str "Parameter Mismatch") :=
  ⟨(read_reference refLib emptyStub).2.2.2.1 (str "missing-key") none none rfl (Or.inr rfl),
   (read_reference refLib recordStub).2.2.1 (str "KEY1") (str "\x7b\"a\":1\x7d")
     (by decide) (by decide),
   (read_reference refLib recordStub).2.2.2.2 (str "KEY1") (str "Key1") (by decide),
   ((read_reference refLib recordStub).1 emptyStub [] (by decide)).1⟩

/-- C6: `Invoke` with the name "read" is `read`, with the name "write" is `write`, and with any
other name returns status 501 with the fixed message and leaves the stub as it was. -/
theorem Invoke_dispatch (lib : Lib) (stub : Stub) (function : GoString) (args : List GoString) :
    Invoke lib stub (str "read") args = some (read lib stub args) ∧
    Invoke lib stub (str "write") args = write lib stub args ∧
    (function ≠ str "read" → function ≠ str "write" →
      Invoke lib stub function args =
        some (Error 501 (str "Invalid method! Valid methods are 'read|write'!"), stub)) := by
  refine ⟨?_, ?_, ?_⟩
  · simp [Invoke]
  · have h : str "write" ≠ str "read" := by decide
    simp [Invoke, h]
  · intro h1 h2
    simp [Invoke, h1, h2]

/-- C6 for the names "delete", "Read", "WRITE" and the empty name. -/
theorem Invoke_dispatch_witness :
    Invoke refLib emptyStub (str "delete") [] =
      some (Error 501 (str "Invalid method! Valid methods are 'read|write'!"), emptyStub) ∧
    Invoke refLib emptyStub (str "Read") [str "key1"] =
      some (Error 501 (str "Invalid method! Valid methods are 'read|write'!"), emptyStub) ∧
    Invoke refLib emptyStub (str "WRITE") [str "key1", str "\x7b\x7d"] =
      some (Error 501 (str "Invalid method! Valid methods are 'read|write'!"), emptyStub) ∧
    Invoke refLib emptyStub (str "") [] =
      some (Error 501 (str "Invalid method! Valid methods are 'read|write'!"), emptyStub) :=
  ⟨(Invoke_dispatch refLib emptyStub (str "delete") []).2.2 (by decide) (by decide),
   (Invoke_dispatch refLib emptyStub (str "Read") [str "key1"]).2.2 (by decide) (by decide),
   (Invoke_dispatch refLib emptyStub (str "WRITE") [str "key1", str "\x7b\x7d"]).2.2
     (by decide) (by decide),
   (Invoke_dispatch refLib emptyStub (str "") []).2.2 (by decide) (by decide)⟩

/-- C7, as stated, fails: the ledger maps "key1" to the empty, non-nil value and reports no
error, and `read` of "key1" returns status 200 "OK" with the empty payload, not status 404. -/
theorem read_empty_value_counterexample :
    emptyValueStub.state (refLib.ToLower (str "key1")) = some [] ∧
    emptyValueStub.getErr (refLib.ToLower (str "key1")) = none ∧
    (read refLib emptyValueStub [str "key1"]).1 = Success 200 (str "OK") (some []) ∧
    (read refLib emptyValueStub [str "key1"]).1 ≠ Error 404 (str "Not Found") := by
  decide

/-- C7, amended: when the ledger maps the lower-cased key to the empty, non-nil value and the
query reports no error, `read` returns status 200 "OK" with the empty payload. -/
theorem read_empty_value (lib : Lib) (stub : Stub) (k : GoString)
    (hstate : stub.state (lib.ToLower k) = some [])
    (herr : stub.getErr (lib.ToLower k) = none) :
    (read lib stub [k]).1 = Success 200 (str "OK") (some []) := by
  unfold read Stub.GetState
  simp only [hstate, herr]

/-- C7, amended, for the argument "KEY1" on a ledger with the empty value under "key1". -/
theorem read_empty_value_witness :
    (read refLib emptyValueStub [str "KEY1"]).1 = Success 200 (str "OK") (some []) :=
  read_empty_value refLib emptyValueStub (str "KEY1") (by decide) (by decide)

/-- C10: when the arguments pass the validation and the emission of the event fails with the
error `e`, `write` returns status 500 with the message of `e`; the put is not called, and the
ledger and the notifications are as before. -/
theorem write_emission_failure (lib : Lib) (stub : Stub) (args : List GoString)
    (v e : GoString)
    (hval : Validate lib (str "create") args (flatten writeSpec) =
      some (Success 0 (str "OK") none))
    (hv : args[1]? = some v)
    (hev : stub.eventErr (str "event-name") v = some e) :
    ∃ stub', write lib stub args =
        some ({ Status := 500, Message := e, Payload := none }, stub') ∧
      stub'.state = stub.state ∧
      stub'.events = stub.events ∧
      stub'.calls = stub.calls ++ [Call.SetEvent (str "event-name") v] := by
  obtain ⟨k, v', hargs, _⟩ := valid_write_args lib (str "create") args hval
  subst hargs
  have hv' : v' = v := by simpa using hv
  subst hv'
  rw [write_of_valid lib stub k v' hval]
  simp only [Stub.SetEvent, hev]
  exact ⟨_, rfl, rfl, rfl, rfl⟩

/-- C10 with a failing event transport: status 500, the ledger still empty. -/
theorem write_emission_failure_witness :
    ∃ stub', write refLib eventFailStub [str "bulb1", str "\x7b\"state\":\"on\"\x7d"] =
        some ({ Status := 500, Message := str "event transport down", Payload := none },
          stub') ∧
      stub'.state = eventFailStub.state ∧
      stub'.events = eventFailStub.events ∧
      stub'.calls = eventFailStub.calls ++
        [Call.SetEvent (str "event-name") (str "\x7b\"state\":\"on\"\x7d")] :=
  write_emission_failure refLib eventFailStub [str "bulb1", str "\x7b\"state\":\"on\"\x7d"]
    (str "\x7b\"state\":\"on\"\x7d") (str "event transport down") (by decide) rfl rfl

/-! ## Further claims on `Validate` and `write` -/

/-- C11: whenever the number of arguments differs from the length of the specification,
`Validate` returns status 400 "Parameter Mismatch", whatever the arguments are. -/
theorem Validate_arity_mismatch (lib : Lib) (funcName : GoString) (args : List GoString)
    (spec : List ArgDesc) (hlen : args.length ≠ spec.length) :
    Validate lib funcName args (flatten spec) = some (Error 400 (str "Parameter Mismatch")) := by
  unfold Validate
  simp [flatten_length, hlen]

/-- C11 at `write` with three arguments, of which the second is not JSON and the first is too
long. -/
theorem Validate_arity_mismatch_witness :
    Validate refLib (str "create") [List.replicate 65 97, str "x", str "y"] (flatten writeSpec) =
      some (Error 400 (str "Parameter Mismatch")) :=
  Validate_arity_mismatch refLib (str "create") [List.replicate 65 97, str "x", str "y"]
    writeSpec (by decide)

/-- The four ways in which `write` ends: the validation fails; or the arguments are a valid key
and value and the emission fails, the put fails, or both succeed. It never panics. -/
theorem write_cases (lib : Lib) (stub : Stub) (args : List GoString) :
    (∃ msg, Validate lib (str "create") args (flatten writeSpec) = some (Error 400 msg) ∧
      write lib stub args = some (Error 400 msg, stub)) ∨
    (∃ k v, args = [k, v] ∧ accepts lib [k, v] writeSpec ∧
      write lib stub args =
        match stub.eventErr (str "event-name") v with
        | some e =>
          some (shimError e,
            { stub with calls := stub.calls ++ [Call.SetEvent (str "event-name") v] })
        | none =>
          match stub.putErr k v with
          | some e =>
            some (Error 500 e,
              { stub with
                calls := stub.calls ++ [Call.SetEvent (str "event-name") v] ++
                  [Call.PutState k v]
                events := stub.events ++ [(str "event-name", v)] })
          | none =>
            some (Success 201 (str "Created") none,
              { stub with
                calls := stub.calls ++ [Call.SetEvent (str "event-name") v] ++
                  [Call.PutState k v]
                events := stub.events ++ [(str "event-name", v)]
                state := fun k' => if k' = k then some v else stub.state k' })) := by
  rcases Validate_flatten_cases lib (str "create") args writeSpec with ⟨hacc, hok⟩ | ⟨_, msg, herr⟩
  · right
    obtain ⟨k, v, hargs, _⟩ := valid_write_args lib (str "create") args hok
    subst hargs
    refine ⟨k, v, rfl, hacc, ?_⟩
    rw [write_of_valid lib stub k v hok]
    unfold Stub.SetEvent
    cases hev : stub.eventErr (str "event-name") v with
    | some e => rfl
    | none =>
      simp only [Stub.PutState]
      cases hput : stub.putErr k v <;> rfl
  · left
    refine ⟨msg, herr, ?_⟩
    rw [flatten_writeSpec] at herr
    unfold write
    rw [herr]
    simp [Error]

/-- C12: when one call of `write` puts a value under a key, the calls it made are the emission
of the event with that value followed by the put, and the notification with that value was
emitted; in particular a call that changes the ledger has done so. -/
theorem write_put_after_event (lib : Lib) (stub : Stub) (args : List GoString) (r : Response)
    (stub' : Stub) (h : write lib stub args = some (r, stub')) :
    (∀ (k : GoString) (v : List UInt8) (newCalls : List Call),
      stub'.calls = stub.calls ++ newCalls → Call.PutState k v ∈ newCalls →
      newCalls = [Call.SetEvent (str "event-name") v, Call.PutState k v] ∧
        stub'.events = stub.events ++ [(str "event-name", v)]) ∧
    (stub'.state ≠ stub.state →
      ∃ (k : GoString) (v : List UInt8),
        stub'.calls = stub.calls ++ [Call.SetEvent (str "event-name") v, Call.PutState k v] ∧
        stub'.events = stub.events ++ [(str "event-name", v)] ∧
        stub'.state k = some v) := by
  rcases write_cases lib stub args with ⟨msg, _, hw⟩ | ⟨k, v, _, _, hw⟩
  · rw [hw] at h
    obtain ⟨_, hs⟩ := Prod.mk.inj (Option.some.inj h)
    subst hs
    refine ⟨fun k v newCalls hc hmem => ?_, fun hne => absurd rfl hne⟩
    have hnil : newCalls = [] := by
      have h2 : stub.calls ++ [] = stub.calls ++ newCalls := by simpa using hc
      exact (List.append_cancel_left h2).symm
    subst hnil
    cases hmem
  · rw [hw] at h
    cases hev : stub.eventErr (str "event-name") v with
    | some e =>
      simp only [hev] at h
      obtain ⟨_, hs⟩ := Prod.mk.inj (Option.some.inj h)
      subst hs
      refine ⟨fun k0 v0 newCalls hc hmem => ?_, fun hne => absurd rfl hne⟩
      have hn := List.append_cancel_left hc
      subst hn
      simp at hmem
    | none =>
      simp only [hev] at h
      cases hput : stub.putErr k v with
      | some e =>
        simp only [hput] at h
        obtain ⟨_, hs⟩ := Prod.mk.inj (Option.some.inj h)
        subst hs
        refine ⟨fun k0 v0 newCalls hc hmem => ?_, fun hne => absurd rfl hne⟩
        have hn := List.append_cancel_left ((List.append_assoc _ _ _).symm.trans hc)
        subst hn
        simp at hmem
        obtain ⟨hk, hv⟩ := hmem
        subst hk
        subst hv
        exact ⟨rfl, rfl⟩
      | none =>
        simp only [hput] at h
        obtain ⟨_, hs⟩ := Prod.mk.inj (Option.some.inj h)
        subst hs
        refine ⟨fun k0 v0 newCalls hc hmem => ?_, fun _ => ⟨k, v, by simp, rfl, by simp⟩⟩
        have hn := List.append_cancel_left ((List.append_assoc _ _ _).symm.trans hc)
        subst hn
        simp at hmem
        obtain ⟨hk, hv⟩ := hmem
        subst hk
        subst hv
        exact ⟨rfl, rfl⟩

/-- C12 on the empty ledger: the put of `{"state":"on"}` under "bulb1" comes after the emission
of the notification carrying `{"state":"on"}`. -/
theorem write_put_after_event_witness :
    write refLib emptyStub [str "bulb1", str "\x7b\"state\":\"on\"\x7d"] =
      some (Success 201 (str "Created") none, bulbWritten) ∧
    [Call.SetEvent (str "event-name") (str "\x7b\"state\":\"on\"\x7d"),
      Call.PutState (str "bulb1") (str "\x7b\"state\":\"on\"\x7d")] =
      [Call.SetEvent (str "event-name") (str "\x7b\"state\":\"on\"\x7d"),
        Call.PutState (str "bulb1") (str "\x7b\"state\":\"on\"\x7d")] ∧
    bulbWritten.events =
      emptyStub.events ++ [(str "event-name", str "\x7b\"state\":\"on\"\x7d")] :=
  ⟨rfl,
   (write_put_after_event refLib emptyStub [str "bulb1", str "\x7b\"state\":\"on\"\x7d"]
      (Success 201 (str "Created") none) bulbWritten rfl).1
      (str "bulb1") (str "\x7b\"state\":\"on\"\x7d")
      [Call.SetEvent (str "event-name") (str "\x7b\"state\":\"on\"\x7d"),
        Call.PutState (str "bulb1") (str "\x7b\"state\":\"on\"\x7d")]
      rfl (List.mem_cons_of_mem _ (List.mem_singleton.2 rfl))⟩

/-- C13: when the arguments pass the validation, the emission succeeds and the put fails with
the error `e`, `write` returns status 500 with the message of `e` and no payload; the
notification has been emitted and the ledger is as before. -/
theorem write_put_failure (lib : Lib) (stub : Stub) (args : List GoString) (k v e : GoString)
    (hval : Validate lib (str "create") args (flatten writeSpec) =
      some (Success 0 (str "OK") none))
    (hk : args[0]? = some k) (hv : args[1]? = some v)
    (hev : stub.eventErr (str "event-name") v = none)
    (hput : stub.putErr k v = some e) :
    ∃ stub', write lib stub args =
        some ({ Status := 500, Message := e, Payload := none }, stub') ∧
      stub'.events = stub.events ++ [(str "event-name", v)] ∧
      stub'.calls = stub.calls ++ [Call.SetEvent (str "event-name") v, Call.PutState k v] ∧
      stub'.state = stub.state := by
  obtain ⟨k', v', hargs, _⟩ := valid_write_args lib (str "create") args hval
  subst hargs
  have hk' : k' = k := by simpa using hk
  have hv' : v' = v := by simpa using hv
  subst hk'
  subst hv'
  rw [write_of_valid lib stub k' v' hval]
  simp only [Stub.SetEvent, hev, Stub.PutState, hput]
  exact ⟨_, rfl, rfl, by simp, rfl⟩

/-- C13 with a ledger that refuses the put: status 500 with the message of the ledger. -/
theorem write_put_failure_witness :
    ∃ stub', write refLib putFailStub [str "bulb1", str "\x7b\"state\":\"on\"\x7d"] =
        some ({ Status := 500, Message := str "ledger unavailable", Payload := none },
          stub') ∧
      stub'.events = putFailStub.events ++
        [(str "event-name", str "\x7b\"state\":\"on\"\x7d")] ∧
      stub'.calls = putFailStub.calls ++
        [Call.SetEvent (str "event-name") (str "\x7b\"state\":\"on\"\x7d"),
         Call.PutState (str "bulb1") (str "\x7b\"state\":\"on\"\x7d")] ∧
      stub'.state = putFailStub.state :=
  write_put_failure refLib putFailStub [str "bulb1", str "\x7b\"state\":\"on\"\x7d"]
    (str "bulb1") (str "\x7b\"state\":\"on\"\x7d") (str "ledger unavailable")
    (by decide) rfl rfl rfl rfl

/-- C14 fails on the code, by the defect of C3: on the empty ledger `write` of the key "Key1"
returns status 201, and the following `read` of the same key "Key1" returns status 404
"Not Found", because `read` looks up "key1". -/
theorem write_then_read_same_key_not_found :
    (write refLib emptyStub [str "Key1", str "\x7b\"a\":1\x7d"]).map
        (fun p => (p.1, p.2.state (str "Key1"), (read refLib p.2 [str "Key1"]).1)) =
      some (Success 201 (str "Created") none, some (str "\x7b\"a\":1\x7d"),
        Error 404 (str "Not Found")) := by
  decide

/-- The first argument of `write` longer than 64 bytes is reported as a length error. -/
theorem Validate_long_key (lib : Lib) (k v : GoString) (hk : 64 < len k) :
    Validate lib (str "create") [k, v] (flatten writeSpec) =
      some (Error 400 (str "Parameter Length Error")) := by
  have h := Validate_least_violation lib (str "create") [k, v] writeSpec 0 k
    { kind := Kind.PlainString, minLength := 1, maxLength := 64 } rfl rfl rfl
    (Or.inr (Or.inr hk)) (fun j hj => absurd hj (Nat.not_lt_zero j))
  rw [h]
  simp [violationMessage]

/-- C16: with a key of exactly 64 bytes and the value `{}` the validation of `write` passes and,
the emission and the put succeeding, the result is 201; with a key of exactly 65 bytes `write`
returns status 400 "Parameter Length Error" whatever the second argument is, and the stub is as
before. -/
theorem write_key_length_boundary (lib : Lib) (stub : Stub) (k v : GoString) :
    (len k = 64 → lib.jsonUnmarshal (str "\x7b\x7d") = true →
      Validate lib (str "create") [k, str "\x7b\x7d"] (flatten writeSpec) =
        some (Success 0 (str "OK") none) ∧
      (stub.eventErr (str "event-name") (str "\x7b\x7d") = none →
        stub.putErr k (str "\x7b\x7d") = none →
        ∃ stub', write lib stub [k, str "\x7b\x7d"] =
          some (Success 201 (str "Created") none, stub'))) ∧
    (len k = 65 →
      write lib stub [k, v] = some (Error 400 (str "Parameter Length Error"), stub)) := by
  constructor
  · intro hk hjson
    have hval := Validate_of_accepts lib (str "create") [k, str "\x7b\x7d"] writeSpec
      (accepts_write_args lib k (str "\x7b\x7d") (by omega) (by omega) (by decide) (by decide)
        hjson)
    refine ⟨hval, fun hev hput => ?_⟩
    rw [write_of_valid lib stub k _ hval]
    simp only [Stub.SetEvent, hev, Stub.PutState, hput]
    exact ⟨_, rfl⟩
  · intro hk
    have hval := Validate_long_key lib k v (by omega)
    rcases write_cases lib stub [k, v] with ⟨msg, hv, hw⟩ | ⟨k0, v0, hargs, hacc, _⟩
    · rw [hval] at hv
      rw [hw, ← Option.some.inj hv]
    · have hkv := Validate_of_accepts lib (str "create") [k0, v0] writeSpec hacc
      rw [← hargs, hval] at hkv
      exact absurd (Option.some.inj hkv) (Error_ne_okResponse _)

/-- C16 with keys of 64 and of 65 letters "a". -/
theorem write_key_length_boundary_witness :
    (Validate refLib (str "create") [List.replicate 64 97, str "\x7b\x7d"]
        (flatten writeSpec) = some (Success 0 (str "OK") none) ∧
      ∃ stub', write refLib emptyStub [List.replicate 64 97, str "\x7b\x7d"] =
        some (Success 201 (str "Created") none, stub')) ∧
    write refLib emptyStub [List.replicate 65 97, str "not json"] =
      some (Error 400 (str "Parameter Length Error"), emptyStub) :=
  ⟨⟨((write_key_length_boundary refLib emptyStub (List.replicate 64 97) (str "x")).1
        (by decide) (by decide)).1,
    ((write_key_length_boundary refLib emptyStub (List.replicate 64 97) (str "x")).1
        (by decide) (by decide)).2 rfl rfl⟩,
   (write_key_length_boundary refLib emptyStub (List.replicate 65 97) (str "not json")).2
     (by decide)⟩

/-- C17, as stated, fails at the value `null`: it is valid JSON and not an object, yet `write`
of the key "k" with the value `null` returns status 201 and stores `null`. -/
theorem write_null_counterexample :
    scanJson (str "null") = true ∧ firstByte (str "null") ≠ some 123 ∧
    (write refLib emptyStub [str "k", str "null"]).map (fun p => (p.1, p.2.state (str "k"))) =
      some (Success 201 (str "Created") none, some (str "null")) := by
  decide

/-- A value that does not decode is rejected by `write` before anything else happens. -/
theorem write_json_invalid (lib : Lib) (stub : Stub) (k v : GoString)
    (hk1 : 1 ≤ len k) (hk2 : len k ≤ 64) (hjson : lib.jsonUnmarshal v = false) :
    write lib stub [k, v] = some (Error 400 (str "JSON Payload Not Valid"), stub) := by
  have hval : Validate lib (str "create") [k, v] (flatten writeSpec) =
      some (Error 400 (str "JSON Payload Not Valid")) := by
    have h := Validate_least_violation lib (str "create") [k, v] writeSpec 1 v
      { kind := Kind.JSONObjectString, minLength := 2, maxLength := 4096 } rfl rfl rfl
      (Or.inl ⟨rfl, hjson⟩)
      (by
        intro j hj
        have hj0 : j = 0 := by omega
        subst hj0
        rintro ⟨b, e, hb, he, hv⟩
        have hb1 : k = b := by simpa using hb
        subst hb1
        cases he
        rcases hv with ⟨hkind, _⟩ | hlt | hgt
        · cases hkind
        · have h1 : ¬ len k < 1 := by omega
          exact h1 hlt
        · have h2 : ¬ len k > 64 := by omega
          exact h2 hgt)
    rw [h]
    simp [violationMessage, hjson]
  rcases write_cases lib stub [k, v] with ⟨msg, hv, hw⟩ | ⟨k0, v0, hargs, hacc, _⟩
  · rw [hval] at hv
    rw [hw, ← Option.some.inj hv]
  · have hkv := Validate_of_accepts lib (str "create") [k0, v0] writeSpec hacc
    rw [← hargs, hval] at hkv
    exact absurd (Option.some.inj hkv) (Error_ne_okResponse _)

/-- C17, amended: for a key of 1 to 64 bytes and a value that fails to decode into the map,
`write` returns status 400 "JSON Payload Not Valid" and leaves the stub as it was; with the
reference library this is every value whose top-level JSON value is an array, a string, a number
or a boolean, that is, whose first byte after white space is neither an opening brace nor the
`n` of `null`. -/
theorem write_rejects_non_object (stub : Stub) (k v : GoString)
    (hk1 : 1 ≤ len k) (hk2 : len k ≤ 64) :
    (∀ lib : Lib, lib.jsonUnmarshal v = false →
      write lib stub [k, v] = some (Error 400 (str "JSON Payload Not Valid"), stub)) ∧
    (firstByte v ≠ some 123 → firstByte v ≠ some 110 →
      write refLib stub [k, v] = some (Error 400 (str "JSON Payload Not Valid"), stub)) := by
  refine ⟨fun lib h => write_json_invalid lib stub k v hk1 hk2 h, fun h1 h2 => ?_⟩
  apply write_json_invalid refLib stub k v hk1 hk2
  show jsonUnmarshalMap v = false
  unfold jsonUnmarshalMap
  simp [h1, h2]

/-- C17, amended, for the values `[1]`, `12`, `"ab"` and `true`. -/
theorem write_rejects_non_object_witness :
    write refLib emptyStub [str "k", str "[1]"] =
      some (Error 400 (str "JSON Payload Not Valid"), emptyStub) ∧
    write refLib emptyStub [str "k", str "12"] =
      some (Error 400 (str "JSON Payload Not Valid"), emptyStub) ∧
    write refLib emptyStub [str "k", str "\"ab\""] =
      some (Error 400 (str "JSON Payload Not Valid"), emptyStub) ∧
    write refLib emptyStub [str "k", str "true"] =
      some (Error 400 (str "JSON Payload Not Valid"), emptyStub) :=
  ⟨(write_rejects_non_object emptyStub (str "k") (str "[1]") (by decide) (by decide)).2
      (by decide) (by decide),
   (write_rejects_non_object emptyStub (str "k") (str "12") (by decide) (by decide)).2
      (by decide) (by decide),
   (write_rejects_non_object emptyStub (str "k") (str "\"ab\"") (by decide) (by decide)).2
      (by decide) (by decide),
   (write_rejects_non_object emptyStub (str "k") (str "true") (by decide) (by decide)).2
      (by decide) (by decide)⟩

/-! ## Claims on sequences of calls -/

/-- The ledger after `read` is the ledger before. -/
theorem read_state (lib : Lib) (stub : Stub) (args : List GoString) :
    (read lib stub args).2.state = stub.state := by
  unfold read
  split
  · simp only [Stub.GetState]
    split <;> (rename_i h; simp only [Prod.mk.injEq] at h; rw [← h.2])
  · rfl

/-- The response of `read` with one argument depends on the stub through the value and the error
at the lower-cased argument only. -/
theorem read_response_congr (lib : Lib) (s1 s2 : Stub) (k : GoString)
    (hstate : s1.state (lib.ToLower k) = s2.state (lib.ToLower k))
    (herr : s1.getErr (lib.ToLower k) = s2.getErr (lib.ToLower k)) :
    (read lib s1 [k]).1 = (read lib s2 [k]).1 := by
  simp only [read, Stub.GetState, hstate, herr]
  cases s2.state (lib.ToLower k) <;> cases s2.getErr (lib.ToLower k) <;> rfl

/-- No lower-cased text is "Key1". -/
theorem asciiToLower_ne_Key1 (x : GoString) : asciiToLower x ≠ str "Key1" := by
  have hbyte : ∀ c : UInt8, (if 65 ≤ c && c ≤ 90 then c + 32 else c) ≠ 75 := by
    intro c
    rcases c with ⟨n⟩
    revert n
    decide
  intro h
  cases x with
  | nil => exact absurd h (by decide)
  | cons c cs =>
    have h1 : (asciiToLower (c :: cs)).head? = (str "Key1").head? := by rw [h]
    simp only [asciiToLower, List.map_cons, List.head?_cons] at h1
    exact hbyte c (Option.some.inj h1)

/-- C18, as stated, fails when the query of the ledger reports an error: `write` of the key
"key1" returns 201 and stores the value, and the following `read` of "KEY1", whose lower-casing
is "key1", returns status 404 and not 200. -/
theorem read_after_write_counterexample :
    refLib.ToLower (str "KEY1") = str "key1" ∧
    getFailStub.eventErr (str "event-name") (str "\x7b\"a\":2\x7d") = none ∧
    getFailStub.putErr (str "key1") (str "\x7b\"a\":2\x7d") = none ∧
    (write refLib getFailStub [str "key1", str "\x7b\"a\":2\x7d"]).map
        (fun p => (p.1, p.2.state (str "key1"), (read refLib p.2 [str "KEY1"]).1)) =
      some (Success 201 (str "Created") none, some (str "\x7b\"a\":2\x7d"),
        Error 404 (str "Not Found")) := by
  decide

/-- C18, amended: after a successful `write` of a valid key `k` and value `v`, `read` of an
argument whose lower-casing is `k` returns status 200 with payload `v` provided the query of the
ledger reports no error, and `read` of any other argument returns what it returned before the
write. Hence a record written under a lower-case key is returned by reading that key in any
letter case, and a record written under a key that is not a lower-cased text changes the result
of no read. -/
theorem read_after_write (lib : Lib) (stub : Stub) (k v : GoString)
    (hk1 : 1 ≤ len k) (hk2 : len k ≤ 64) (hv1 : 2 ≤ len v) (hv2 : len v ≤ 4096)
    (hjson : lib.jsonUnmarshal v = true)
    (hev : stub.eventErr (str "event-name") v = none) (hput : stub.putErr k v = none) :
    ∃ stub', write lib stub [k, v] = some (Success 201 (str "Created") none, stub') ∧
      (∀ k' : GoString, lib.ToLower k' = k → stub.getErr k = none →
        (read lib stub' [k']).1 = Success 200 (str "OK") (some v)) ∧
      (∀ k' : GoString, lib.ToLower k' ≠ k →
        (read lib stub' [k']).1 = (read lib stub [k']).1) ∧
      (lib.ToLower k = k → stub.getErr k = none →
        ∀ k' : GoString, lib.ToLower k' = lib.ToLower k →
          (read lib stub' [k']).1 = Success 200 (str "OK") (some v)) ∧
      ((∀ x : GoString, lib.ToLower x ≠ k) →
        ∀ k' : GoString, (read lib stub' [k']).1 = (read lib stub [k']).1) := by
  rw [write_of_valid lib stub k v
    (Validate_of_accepts lib _ _ _ (accepts_write_args lib k v hk1 hk2 hv1 hv2 hjson))]
  simp only [Stub.SetEvent, hev, Stub.PutState, hput]
  have hfound : ∀ (s : Stub) (k' : GoString), s.state (lib.ToLower k') = some v →
      s.getErr (lib.ToLower k') = none →
      (read lib s [k']).1 = Success 200 (str "OK") (some v) := by
    intro s k' h1 h2
    simp only [read, Stub.GetState, h1, h2]
  refine ⟨_, rfl, ?_, ?_, ?_, ?_⟩
  · intro k' hk' herr
    apply hfound
    · simp [hk']
    · simpa [hk'] using herr
  · intro k' hk'
    apply read_response_congr
    · simp [hk']
    · rfl
  · intro hlow herr k' hk'
    apply hfound
    · simp [hk', hlow]
    · simpa [hk', hlow] using herr
  · intro hnot k'
    apply read_response_congr
    · simp [hnot k']
    · rfl

/-- C18, amended, on the empty ledger: the record written under "key1" is read as "KEY1" and the
read of "other" is as before; the record written under "Key1" changes no read. -/
theorem read_after_write_witness :
    (∃ stub', write refLib emptyStub [str "key1", str "\x7b\"a\":1\x7d"] =
        some (Success 201 (str "Created") none, stub') ∧
      (read refLib stub' [str "KEY1"]).1 =
        Success 200 (str "OK") (some (str "\x7b\"a\":1\x7d")) ∧
      (read refLib stub' [str "other"]).1 = (read refLib emptyStub [str "other"]).1) ∧
    (∃ stub', write refLib emptyStub [str "Key1", str "\x7b\"a\":1\x7d"] =
        some (Success 201 (str "Created") none, stub') ∧
      ∀ k' : GoString, (read refLib stub' [k']).1 = (read refLib emptyStub [k']).1) :=
  ⟨(read_after_write refLib emptyStub (str "key1") (str "\x7b\"a\":1\x7d")
      (by decide) (by decide) (by decide) (by decide) (by decide) rfl rfl).elim
      fun stub' h => ⟨stub', h.1, h.2.1 (str "KEY1") (by decide) rfl,
        h.2.2.1 (str "other") (by decide)⟩,
   (read_after_write refLib emptyStub (str "Key1") (str "\x7b\"a\":1\x7d")
      (by decide) (by decide) (by decide) (by decide) (by decide) rfl rfl).elim
      fun stub' h => ⟨stub', h.1, h.2.2.2.2 asciiToLower_ne_Key1⟩⟩

/-- C15, as stated, fails after one invocation from the empty ledger: `Invoke` of "write" with
the arguments "k" and `null` returns status 201 and leaves the record "k" with the value `null`,
which is no JSON object. -/
theorem Invoke_null_counterexample :
    isJsonObject (str "null") = false ∧
    (Invoke refLib emptyStub (str "write") [str "k", str "null"]).map
        (fun p => (p.1, p.2.state (str "k"))) =
      some (Success 201 (str "Created") none, some (str "null")) := by
  decide

/-- C15, amended: every `Invoke` returns and preserves the validity of the ledger, and after any
sequence of invocations from the empty ledger, whatever the function names, the arguments and
the errors of the host, every record has a key of 1 to 64 bytes and a value of 2 to 4096 bytes
that decodes into the map without error (a JSON object or the text `null`). -/
theorem Invoke_preserves_validLedger (lib : Lib) :
    (∀ (stub : Stub) (function : GoString) (args : List GoString), validLedger lib stub →
      ∃ r stub', Invoke lib stub function args = some (r, stub') ∧ validLedger lib stub') ∧
    (∀ invs : List Invocation,
      ∃ stub', runInvocations lib emptyStub invs = some stub' ∧ validLedger lib stub') := by
  have step : ∀ (stub : Stub) (function : GoString) (args : List GoString),
      validLedger lib stub →
      ∃ r stub', Invoke lib stub function args = some (r, stub') ∧ validLedger lib stub' := by
    intro stub function args hvalid
    unfold Invoke
    by_cases hr : function = str "read"
    · refine ⟨(read lib stub args).1, (read lib stub args).2, by simp [hr], ?_⟩
      intro k v hkv
      rw [read_state] at hkv
      exact hvalid k v hkv
    · by_cases hw : function = str "write"
      · simp only [hr, hw, if_false, if_true]
        rcases write_cases lib stub args with ⟨msg, _, hwr⟩ | ⟨k, v, _, hacc, hwr⟩
        · exact ⟨_, _, hwr, hvalid⟩
        · rw [hwr]
          cases stub.eventErr (str "event-name") v with
          | some e => exact ⟨_, _, rfl, hvalid⟩
          | none =>
            cases stub.putErr k v with
            | some e => exact ⟨_, _, rfl, hvalid⟩
            | none =>
              refine ⟨_, _, rfl, ?_⟩
              intro k' v' hkv
              have h0 := hacc.2 0 k _ rfl rfl
              have h1 := hacc.2 1 v _ rfl rfl
              by_cases hk : k' = k
              · simp only [hk, if_true] at hkv
                have hv : v = v' := Option.some.inj hkv
                subst hv
                subst hk
                exact ⟨h0.2.1, h0.2.2, h1.2.1, h1.2.2, h1.1 rfl⟩
              · simp only [hk, if_false] at hkv
                exact hvalid k' v' hkv
      · exact ⟨Error 501 (str "Invalid method! Valid methods are 'read|write'!"), stub,
          by simp [hr, hw], hvalid⟩
  refine ⟨step, fun invs => ?_⟩
  have run : ∀ (invs : List Invocation) (stub : Stub), validLedger lib stub →
      ∃ stub', runInvocations lib stub invs = some stub' ∧ validLedger lib stub' := by
    intro invs
    induction invs with
    | nil => exact fun stub h => ⟨stub, rfl, h⟩
    | cons inv rest ih =>
      intro stub h
      obtain ⟨r, stub1, h1, h2⟩ := step
        { stub with getErr := inv.getErr, eventErr := inv.eventErr, putErr := inv.putErr }
        inv.function inv.args h
      obtain ⟨stub2, h3, h4⟩ := ih stub1 h2
      refine ⟨stub2, ?_, h4⟩
      unfold runInvocations
      rw [h1]
      exact h3
  exact run invs emptyStub (fun k v h => by cases h)

/-- C15, amended, on a sequence of five invocations with mixed outcomes. -/
theorem Invoke_preserves_validLedger_witness :
    ∃ stub', runInvocations refLib emptyStub sampleInvocations = some stub' ∧
      validLedger refLib stub' :=
  (Invoke_preserves_validLedger refLib).2 sampleInvocations

/-! ## Claims on the flat descriptor of `Validate` -/

/-- The loop body at a position depends on the three descriptor entries and the argument of that
position only. -/
theorem loopBody_congr (lib : Lib) (args args' : List GoString) (desc desc' : List Iface)
    (j : Nat) (h0 : desc'[j * 3]? = desc[j * 3]?) (h1 : desc'[j * 3 + 1]? = desc[j * 3 + 1]?)
    (h2 : desc'[j * 3 + 2]? = desc[j * 3 + 2]?) (ha : args'[j]? = args[j]?) :
    loopBody lib args' desc' j = loopBody lib args desc j := by
  unfold loopBody caseJson caseString
  rw [h0, h1, h2, ha]

/-- Two loops whose bodies agree on the remaining positions have the same result. -/
theorem validateLoop_congr (lib : Lib) (args args' : List GoString) (desc desc' : List Iface)
    (n i : Nat)
    (h : ∀ j, i ≤ j → j < i + n → loopBody lib args' desc' j = loopBody lib args desc j) :
    validateLoop lib args' desc' n i = validateLoop lib args desc n i := by
  induction n generalizing i with
  | zero => rfl
  | succ n ih =>
    unfold validateLoop
    rw [h i (Nat.le_refl i) (by omega), ih (i + 1) fun j h1 h2 => h j (by omega) (by omega)]

/-- A loop none of whose remaining bodies panics returns a response. -/
theorem validateLoop_no_panic (lib : Lib) (args : List GoString) (desc : List Iface) (n i : Nat)
    (h : ∀ j, i ≤ j → j < i + n → loopBody lib args desc j ≠ Step.panic) :
    ∃ r, validateLoop lib args desc n i = some r := by
  induction n generalizing i with
  | zero => exact ⟨_, rfl⟩
  | succ n ih =>
    unfold validateLoop
    have hi := h i (Nat.le_refl i) (by omega)
    cases hb : loopBody lib args desc i with
    | panic => exact absurd hb hi
    | ret r => exact ⟨r, rfl⟩
    | next => exact ih (i + 1) fun j h1 h2 => h j (by omega) (by omega)

/-- The length check does not panic when the two bounds are integers and the argument exists. -/
theorem caseString_ne_panic (args : List GoString) (desc : List Iface) (j : Nat) (a : GoString)
    (m n : Int) (ha : args[j]? = some a) (h1 : desc[j * 3 + 1]? = some (Iface.int m))
    (h2 : desc[j * 3 + 2]? = some (Iface.int n)) :
    caseString args desc j ≠ Step.panic := by
  unfold caseString
  rw [h1, h2, ha]
  simp only
  split <;> simp

/-- A position whose tag is neither "%s" nor "%json" lets the loop go on. -/
theorem loopBody_untagged (lib : Lib) (args : List GoString) (desc : List Iface) (i : Nat)
    (hi : i < desc.length / 3) (ht : isTagged desc i = false) :
    loopBody lib args desc i = Step.next := by
  have hlt : i * 3 < desc.length := by omega
  unfold isTagged at ht
  rw [List.getElem?_eq_getElem hlt] at ht
  unfold loopBody
  rw [List.getElem?_eq_getElem hlt]
  simp only [Bool.or_eq_false_iff, decide_eq_false_iff_not, Option.some.injEq] at ht
  simp [ht.1, ht.2]

/-- The loop is the check of the tagged positions among those that remain. -/
theorem validateLoop_eq_checkPositions (lib : Lib) (args : List GoString) (desc : List Iface)
    (n i : Nat) (h : i + n ≤ desc.length / 3) :
    validateLoop lib args desc n i =
      checkPositions lib args desc ((List.range' i n).filter (isTagged desc)) := by
  induction n generalizing i with
  | zero => rfl
  | succ n ih =>
    rw [List.range'_succ, List.filter_cons]
    unfold validateLoop
    by_cases ht : isTagged desc i = true
    · rw [if_pos ht]
      unfold checkPositions
      rw [ih (i + 1) (by omega)]
    · have ht' : isTagged desc i = false := by simpa using ht
      rw [if_neg ht, loopBody_untagged lib args desc i (by omega) ht']
      exact ih (i + 1) (by omega)

/-- C19: when the two entries after each "%s" or "%json" tag of a flat descriptor of any length
are integers, `Validate` returns a response and does not panic; the entries beyond the last full
group of three are ignored, and the expected number of arguments is the length of the descriptor
divided by three, rounded down. -/
theorem Validate_no_panic (lib : Lib) (funcName : GoString) (args : List GoString)
    (desc : List Iface)
    (hint : ∀ i, i < desc.length / 3 →
      desc[i * 3]? = some (Iface.string (str "%s")) ∨
        desc[i * 3]? = some (Iface.string (str "%json")) →
      ∃ m n : Int, desc[i * 3 + 1]? = some (Iface.int m) ∧
        desc[i * 3 + 2]? = some (Iface.int n)) :
    (∃ r, Validate lib funcName args desc = some r) ∧
    Validate lib funcName args (desc.take (desc.length / 3 * 3)) =
      Validate lib funcName args desc ∧
    (args.length ≠ desc.length / 3 →
      Validate lib funcName args desc = some (Error 400 (str "Parameter Mismatch"))) := by
  refine ⟨?_, ?_, ?_⟩
  · unfold Validate
    by_cases hlen : args.length = desc.length / 3
    · simp only [hlen, ne_eq, not_true_eq_false, if_false]
      apply validateLoop_no_panic
      intro j _ hj
      have hj1 : j < desc.length / 3 := by omega
      have hlt : j * 3 < desc.length := by omega
      have hja : j < args.length := by omega
      have ha : args[j]? = some args[j] := List.getElem?_eq_getElem hja
      unfold loopBody
      rw [List.getElem?_eq_getElem hlt]
      simp only
      by_cases hjson : desc[j * 3] = Iface.string (str "%json")
      · obtain ⟨m, n, h1, h2⟩ := hint j hj1 (Or.inr (by rw [List.getElem?_eq_getElem hlt, hjson]))
        rw [if_pos hjson]
        unfold caseJson
        rw [ha]
        simp only
        split
        · simp
        · exact caseString_ne_panic args desc j _ m n ha h1 h2
      · rw [if_neg hjson]
        by_cases hs : desc[j * 3] = Iface.string (str "%s")
        · obtain ⟨m, n, h1, h2⟩ := hint j hj1 (Or.inl (by rw [List.getElem?_eq_getElem hlt, hs]))
          rw [if_pos hs]
          exact caseString_ne_panic args desc j _ m n ha h1 h2
        · rw [if_neg hs]
          simp
    · exact ⟨Error 400 (str "Parameter Mismatch"), by simp [hlen]⟩
  · have hle : desc.length / 3 * 3 ≤ desc.length := Nat.div_mul_le_self _ _
    have hlen : (desc.take (desc.length / 3 * 3)).length / 3 = desc.length / 3 := by
      rw [List.length_take, Nat.min_eq_left hle]
      exact Nat.mul_div_cancel _ (by decide)
    unfold Validate
    simp only [hlen]
    by_cases ha : args.length = desc.length / 3
    · simp only [ha, ne_eq, not_true_eq_false, if_false]
      apply validateLoop_congr
      intro j _ hj
      apply loopBody_congr
      · exact List.getElem?_take_of_lt (by omega)
      · exact List.getElem?_take_of_lt (by omega)
      · exact List.getElem?_take_of_lt (by omega)
      · rfl
    · simp [ha]
  · intro hlen
    unfold Validate
    simp [hlen]

/-- C19 on a descriptor of eight entries: two arguments are expected and validated, the two
trailing entries are ignored. -/
theorem Validate_no_panic_witness :
    (∃ r, Validate refLib (str "f") [str "ab", str "\x7b\x7d"] raggedDesc = some r) ∧
    Validate refLib (str "f") [str "ab", str "\x7b\x7d"]
        (raggedDesc.take (raggedDesc.length / 3 * 3)) =
      Validate refLib (str "f") [str "ab", str "\x7b\x7d"] raggedDesc ∧
    Validate refLib (str "f") [str "ab", str "\x7b\x7d", str "c"] raggedDesc =
      some (Error 400 (str "Parameter Mismatch")) :=
  have hint : ∀ i, i < raggedDesc.length / 3 →
      raggedDesc[i * 3]? = some (Iface.string (str "%s")) ∨
        raggedDesc[i * 3]? = some (Iface.string (str "%json")) →
      ∃ m n : Int, raggedDesc[i * 3 + 1]? = some (Iface.int m) ∧
        raggedDesc[i * 3 + 2]? = some (Iface.int n) := by
    intro i hi _
    have hi2 : i < 2 := hi
    interval_cases i
    · exact ⟨1, 3, rfl, rfl⟩
    · exact ⟨2, 10, rfl, rfl⟩
  ⟨(Validate_no_panic refLib (str "f") [str "ab", str "\x7b\x7d"] raggedDesc hint).1,
   (Validate_no_panic refLib (str "f") [str "ab", str "\x7b\x7d"] raggedDesc hint).2.1,
   (Validate_no_panic refLib (str "f") [str "ab", str "\x7b\x7d", str "c"] raggedDesc hint).2.2
     (by decide)⟩

/-- C20: a position whose tag is neither "%s" nor "%json" lets the loop go on whatever the
argument and the two entries after the tag are; with matching arity the result of `Validate` is
the result of checking the positions tagged "%s" or "%json" only; and replacing the argument and
the two entries after the tag at such a position does not change the result. -/
theorem Validate_untagged_ignored (lib : Lib) (funcName : GoString) (args : List GoString)
    (desc : List Iface) :
    (∀ i, i < desc.length / 3 → isTagged desc i = false →
      loopBody lib args desc i = Step.next) ∧
    (args.length = desc.length / 3 →
      Validate lib funcName args desc =
        checkPositions lib args desc (taggedPositions desc)) ∧
    (∀ (i : Nat) (a : GoString) (b1 b2 : Iface), i < desc.length / 3 →
      isTagged desc i = false →
      Validate lib funcName (args.set i a) ((desc.set (i * 3 + 1) b1).set (i * 3 + 2) b2) =
        Validate lib funcName args desc) := by
  refine ⟨fun i hi ht => loopBody_untagged lib args desc i hi ht, ?_, ?_⟩
  · intro hlen
    unfold Validate taggedPositions
    simp only [hlen, ne_eq, not_true_eq_false, if_false]
    rw [List.range_eq_range']
    exact validateLoop_eq_checkPositions lib args desc _ 0 (by omega)
  · intro i a b1 b2 hi ht
    have hd : ∀ j : Nat, j ≠ i * 3 + 1 → j ≠ i * 3 + 2 →
        ((desc.set (i * 3 + 1) b1).set (i * 3 + 2) b2)[j]? = desc[j]? := by
      intro j h1 h2
      rw [List.getElem?_set_ne (Ne.symm h2), List.getElem?_set_ne (Ne.symm h1)]
    have ht2 : isTagged ((desc.set (i * 3 + 1) b1).set (i * 3 + 2) b2) i = false := by
      unfold isTagged at *
      rw [hd (i * 3) (by omega) (by omega)]
      exact ht
    unfold Validate
    simp only [List.length_set]
    by_cases hlen : args.length = desc.length / 3
    · simp only [hlen, ne_eq, not_true_eq_false, if_false]
      apply validateLoop_congr
      intro j _ hj
      by_cases hji : j = i
      · subst hji
        rw [loopBody_untagged lib _ _ j (by simpa using hi) ht2,
          loopBody_untagged lib args desc j hi ht]
      · apply loopBody_congr
        · exact hd _ (by omega) (by omega)
        · exact hd _ (by omega) (by omega)
        · exact hd _ (by omega) (by omega)
        · exact List.getElem?_set_ne (Ne.symm hji)
    · simp [hlen]

/-- C20 on a descriptor whose first tag is "%d": the first argument is accepted although it is
empty and the entries after the tag are no integers, and the result is that of checking
position 1 alone. -/
theorem Validate_untagged_ignored_witness :
    loopBody refLib [str "", str "ab"] mixedDesc 0 = Step.next ∧
    Validate refLib (str "f") [str "", str "ab"] mixedDesc =
      checkPositions refLib [str "", str "ab"] mixedDesc [1] ∧
    Validate refLib (str "f") ([str "", str "ab"].set 0 (List.replicate 9000 97))
        ((mixedDesc.set (0 * 3 + 1) (Iface.int 5)).set (0 * 3 + 2) (Iface.int 0)) =
      Validate refLib (str "f") [str "", str "ab"] mixedDesc :=
  ⟨(Validate_untagged_ignored refLib (str "f") [str "", str "ab"] mixedDesc).1 0
      (by decide) (by decide),
   (Validate_untagged_ignored refLib (str "f") [str "", str "ab"] mixedDesc).2.1 rfl,
   (Validate_untagged_ignored refLib (str "f") [str "", str "ab"] mixedDesc).2.2 0
      (List.replicate 9000 97) (Iface.int 5) (Iface.int 0) (by decide) (by decide)⟩

end SmartBulb
